import Mathlib

/-!
Verification of the erry-az/go-init event pipeline and CRUD plumbing.

Each definition is a shallow embedding of the corresponding Go function,
keeping the source's names and branch structure.  Machine integers are
modelled as `Int` (with explicit 32-bit bounds where the Go code checks
them), Go errors as `Except`/`Option`, and nondeterministic inputs
(database results, clocks, UUIDs) as explicit parameters.
-/

namespace GoInit

/-! ## Topic generation, src/pkg/watmil/publisher.go and subscriber.go -/

/-- `generateEventTopic` from src/pkg/watmil/publisher.go. -/
def generateEventTopic (eventName : String) : String :=
  "events." ++ eventName

/-- Topic the EventBus publishes to: `GeneratePublishTopic` in
`NewPublisher` (src/pkg/watmil/publisher.go) returns
`generateEventTopic(params.EventName)`. -/
def eventBusPublishTopic (eventName : String) : String :=
  generateEventTopic eventName

/-- Topic the EventProcessor subscribes a handler to:
`GenerateSubscribeTopic` in `NewSubscriber` (src/pkg/watmil/subscriber.go)
returns `generateEventTopic(params.EventName)`. -/
def eventProcessorSubscribeTopic (eventName : String) : String :=
  generateEventTopic eventName

/-! ## Ack/Nack decisions, src/pkg/watermill/subscriber.go -/

inductive AckDecision
  | ack
  | nack
deriving DecidableEq, Repr

/-- Per-message behaviour of `Subscriber.Subscribe`
(src/pkg/watermill/subscriber.go, lines 41-63): the handler is run; on a
non-nil error the message is Nacked, otherwise Acked.
`handlerErr` is whether the handler returned a non-nil error. -/
def subscribeHandleMessage (handlerErr : Bool) : AckDecision :=
  if handlerErr then AckDecision.nack else AckDecision.ack

/-- Per-message behaviour of `Subscriber.SubscribeProto`
(src/pkg/watermill/subscriber.go, lines 65-98): on unmarshal error the
message is Nacked and the handler is not run; otherwise the handler runs
and the message is Nacked on handler error, Acked on success. -/
def subscribeProtoHandleMessage (unmarshalErr : Bool) (handlerErr : Bool) :
    AckDecision :=
  if unmarshalErr then AckDecision.nack
  else if handlerErr then AckDecision.nack
  else AckDecision.ack

/-! ## Domain errors, src/internal/domain/user.go -/

/-- Go's `type ErrorType int`; values beyond the six iota constants are
representable, which is why this is `Int` and not a six-constructor
inductive. -/
abbrev ErrorType := Int

def errorTypeValidation : ErrorType := 0
def errorTypeNotFound : ErrorType := 1
def errorTypeConflict : ErrorType := 2
def errorTypeInternal : ErrorType := 3
def errorTypeUnauthorized : ErrorType := 4
def errorTypeForbidden : ErrorType := 5

/-- `DomainError` from src/internal/domain/user.go.  The `Cause` chain is
modelled as an optional message, which is all `Error()` uses of it. -/
structure DomainError where
  type : ErrorType
  message : String
  cause : Option String
deriving DecidableEq, Repr

def NewValidationError (message : String) : DomainError :=
  DomainError.mk errorTypeValidation message none

def NewNotFoundError (message : String) : DomainError :=
  DomainError.mk errorTypeNotFound message none

def NewConflictError (message : String) : DomainError :=
  DomainError.mk errorTypeConflict message none

def NewInternalError (message : String) : DomainError :=
  DomainError.mk errorTypeInternal message none

inductive GRPCCode
  | invalidArgument
  | notFound
  | alreadyExists
  | unauthenticated
  | permissionDenied
  | internal
deriving DecidableEq, Repr

structure GRPCStatus where
  code : GRPCCode
  message : String
deriving DecidableEq, Repr

/-- `DomainError.ToGRPCError` from src/internal/domain/user.go
(lines 74-91), with the switch cases in source order and the default
arm mapping to `Internal`. -/
def DomainError.toGRPCError (e : DomainError) : GRPCStatus :=
  if e.type = errorTypeValidation then GRPCStatus.mk GRPCCode.invalidArgument e.message
  else if e.type = errorTypeNotFound then GRPCStatus.mk GRPCCode.notFound e.message
  else if e.type = errorTypeConflict then GRPCStatus.mk GRPCCode.alreadyExists e.message
  else if e.type = errorTypeUnauthorized then GRPCStatus.mk GRPCCode.unauthenticated e.message
  else if e.type = errorTypeForbidden then GRPCStatus.mk GRPCCode.permissionDenied e.message
  else if e.type = errorTypeInternal then GRPCStatus.mk GRPCCode.internal e.message
  else GRPCStatus.mk GRPCCode.internal e.message

/-! ## Decimal digits infrastructure

Strings are handled as `List Char`; decimal digit sequences as `List Nat`
(each < 10). -/

def digitToChar (d : Nat) : Char := Char.ofNat (48 + d)

def charToDigitVal (c : Char) : Nat := c.toNat - 48

def isDigitChar (c : Char) : Bool := decide (48 ≤ c.toNat ∧ c.toNat ≤ 57)

/-- Big-endian decimal digits, fuel-based recursion (the fuel argument
only serves termination; `natToDigits` supplies enough). -/
def natToDigitsAux : Nat → Nat → List Nat
  | 0, n => [n]
  | fuel + 1, n => if n < 10 then [n] else natToDigitsAux fuel (n / 10) ++ [n % 10]

/-- Big-endian decimal digits of a natural number (`[0]` for zero),
the digit sequence `strconv`/`big.Int` printing produces. -/
def natToDigits (n : Nat) : List Nat :=
  natToDigitsAux n n

/-- Value of a big-endian digit list. -/
def digitsVal (ds : List Nat) : Nat :=
  ds.foldl (fun acc d => acc * 10 + d) 0

def natToChars (n : Nat) : List Char :=
  (natToDigits n).map digitToChar

/-- Decimal representation of an integer, as Go's `big.Int.String` /
`strconv.FormatInt` produce it. -/
def intToChars (v : Int) : List Char :=
  if v < 0 then '-' :: natToChars v.natAbs else natToChars v.natAbs

/-- Digits of a nonempty all-digit character run, as a natural number. -/
def parseNatDigits (cs : List Char) : Option Nat :=
  if cs = [] then none
  else if cs.all isDigitChar then some (digitsVal (cs.map charToDigitVal))
  else none

/-- Modelled from the spec: Go's `strconv.ParseInt(s, 10, 64)` and
`big.Int.SetString(s, 10)` (third-party/stdlib, not under src/), which on
the strings reaching them here both accept exactly an optional `+`/`-`
sign followed by one or more decimal digits (the 18-digit length cutoff
in `decimal.NewFromString` keeps the `ParseInt` path within `int64`
range, so the two branches agree). -/
def goParseIntChars (cs : List Char) : Option Int :=
  match cs with
  | [] => none
  | c :: rest =>
      if c = '+' then (parseNatDigits rest).map (fun n => (n : Int))
      else if c = '-' then (parseNatDigits rest).map (fun n => -(n : Int))
      else (parseNatDigits (c :: rest)).map (fun n => (n : Int))

/-- `strings.Index`/`strings.IndexAny` followed by the slicing the Go
code does with the found index: the characters before the first
separator and those after it (`none` when no separator occurs). -/
def goSplitFirst (p : Char → Bool) : List Char → Option (List Char × List Char)
  | [] => none
  | c :: rest =>
      if p c then some ([], rest)
      else
        match goSplitFirst p rest with
        | some (pre, post) => some (c :: pre, post)
        | none => none

/-- Modelled from the spec: `strconv.ParseInt(s, 10, 32)` used for the
exponent in `decimal.NewFromString`: as `goParseIntChars` but the result
must fit in `int32`. -/
def goParseInt32Chars (cs : List Char) : Option Int :=
  match goParseIntChars cs with
  | none => none
  | some v => if v < -(2 ^ 31) ∨ v > 2 ^ 31 - 1 then none else some v

/-! ## The shopspring decimal model (C7)

Modelled from the spec: the repository stores product prices with
`github.com/shopspring/decimal` ("decimal/numeric price handling",
exact), a third-party library not under src/.  `Dec` is the library's
`Decimal{value *big.Int, exp int32}`; `parseDecimalChars` is
`decimal.NewFromString` and `decToString` is `Decimal.String()` (which
trims trailing fractional zeros). -/

structure Dec where
  value : Int
  exp : Int
deriving DecidableEq, Repr

/-- Exact rational value of a decimal: `value * 10^exp`. -/
def decVal (d : Dec) : ℚ :=
  (d.value : ℚ) * (10 : ℚ) ^ d.exp

/-- The `int32` range check `NewFromString` applies to the final
exponent. -/
def mkDecChecked (v e : Int) : Option Dec :=
  if e < -(2 ^ 31) ∨ e > 2 ^ 31 - 1 then none else some (Dec.mk v e)

/-- Mantissa handling of `NewFromString`: at most one `.`, strip it,
shift the exponent by the fraction length, and parse the remaining
characters as a signed integer. -/
def parseMantissa (value : List Char) (exp : Int) : Option Dec :=
  match goSplitFirst (fun c => c = '.') value with
  | none =>
      match goParseIntChars value with
      | none => none
      | some v => mkDecChecked v exp
  | some (ip, fp) =>
      if fp.any (fun c => c = '.') then none
      else
        let intString := ip ++ fp
        let fracLen : Int := fp.length
        match goParseIntChars intString with
        | none => none
        | some v => mkDecChecked v (exp - fracLen)

/-- `decimal.NewFromString`: split at the first `e`/`E` (exponent parsed
as an `int32`), then parse the mantissa; a second `.` is an error. -/
def parseDecimalChars (cs : List Char) : Option Dec :=
  match goSplitFirst (fun c => c = 'e' || c = 'E') cs with
  | some (mantissa, expPart) =>
      match goParseInt32Chars expPart with
      | none => none
      | some expInt => parseMantissa mantissa expInt
  | none => parseMantissa cs 0

def parseDecimal (s : String) : Option Dec :=
  parseDecimalChars s.data

/-- Trailing-zero trim of the fractional part in `Decimal.String()`. -/
def trimTrailingZeroChars (l : List Char) : List Char :=
  (l.reverse.dropWhile (fun c => c = '0')).reverse

/-- `Decimal.String()` (with `trimTrailingZeros = true`): for `exp ≥ 0`
rescale to an integer and print it; for `exp < 0` split the absolute
digits into integer and fractional part, pad with zeros, trim trailing
fractional zeros, and prepend the sign. -/
def decToString (d : Dec) : List Char :=
  if 0 ≤ d.exp then
    intToChars (d.value * (10 : Int) ^ d.exp.toNat)
  else
    let str := natToChars d.value.natAbs
    let fracLen := (-d.exp).toNat
    let intPart := if str.length > fracLen then str.take (str.length - fracLen) else ['0']
    let fracPart :=
      if str.length > fracLen then str.drop (str.length - fracLen)
      else List.replicate (fracLen - str.length) '0' ++ str
    let fracTrimmed := trimTrailingZeroChars fracPart
    let number := intPart ++ (if fracTrimmed = [] then [] else '.' :: fracTrimmed)
    if d.value < 0 then '-' :: number else number

def decString (d : Dec) : String :=
  String.mk (decToString d)

/-! ## pgtype.Numeric model

Modelled from the spec: `github.com/jackc/pgx/v5/pgtype.Numeric`
(third-party, not under src/) as used by the repository: a big-integer
coefficient with a base-10 exponent plus NaN/Valid flags (infinity
modifiers, which the repository never produces, are omitted).  `Scan`
from a string parses a plain decimal number; `Value` renders the
coefficient with the decimal point inserted. -/

structure PgNumeric where
  int : Int
  exp : Int
  nan : Bool
  valid : Bool
deriving DecidableEq, Repr

/-- Text rendering of a finite numeric (pgtype `numberTextBytes`):
append zeros for a positive exponent, insert or pad a decimal point for
a negative one. -/
def pgNumberText (v : Int) (exp : Int) : List Char :=
  let intStr := natToChars v.natAbs
  let signPrefix : List Char := if v < 0 then ['-'] else []
  if 0 < exp then signPrefix ++ intStr ++ List.replicate exp.toNat '0'
  else if exp < 0 then
    if intStr.length ≤ (-exp).toNat then
      signPrefix ++ '0' :: '.' ::
        (List.replicate ((-exp).toNat - intStr.length) '0' ++ intStr)
    else
      signPrefix ++ intStr.take (intStr.length - (-exp).toNat) ++
        '.' :: intStr.drop (intStr.length - (-exp).toNat)
  else signPrefix ++ intStr

/-- Trailing-zero stripping in pgtype `parseNumericString` for inputs
without a decimal point: drop trailing `'0'` while more than one
character remains and the preceding character is not `'-'`; operates on
the reversed character list, returning it with the count of dropped
zeros. -/
def pgStripZeros (rev : List Char) (exp : Nat) : List Char × Nat :=
  match rev with
  | '0' :: c :: rest =>
      if c = '-' then ('0' :: c :: rest, exp)
      else pgStripZeros (c :: rest) (exp + 1)
  | l => (l, exp)

/-- pgtype `parseNumericString`: split off an optional fractional part
and parse the digits as a signed big integer. -/
def parseNumericString (cs : List Char) : Option (Int × Int) :=
  match goSplitFirst (fun c => c = '.') cs with
  | none =>
      let (revStripped, e) := pgStripZeros cs.reverse 0
      match goParseIntChars revStripped.reverse with
      | none => none
      | some v => some (v, (e : Int))
  | some (ip, fp) =>
      let e : Int := -(fp.length : Int)
      match goParseIntChars (ip ++ fp) with
      | none => none
      | some v => some (v, e)

/-- pgtype `Numeric.Scan` from a string: `"NaN"` or a plain decimal
number. -/
def goNumericScanString (s : String) : Option PgNumeric :=
  if s = "NaN" then some (PgNumeric.mk 0 0 true true)
  else
    match parseNumericString s.data with
    | some (v, e) => some (PgNumeric.mk v e false true)
    | none => none

/-- `numericToString` from src/internal/usecase/product.go (lines
348-363, identical helper in src/internal/handler/grpc): `"0"` for
invalid or NaN numerics, otherwise the text rendering of `Value()`. -/
def numericToString (n : PgNumeric) : String :=
  if !n.valid || n.nan then "0"
  else String.mk (pgNumberText n.int n.exp)

/-! ## Domain entities, src/internal/domain -/

/-- `time.Time`, as unix nanoseconds. -/
abbrev GoTime := Int

/-- `uuid.UUID`, abstracted to its 128-bit value. -/
structure UUID where
  val : Nat
deriving DecidableEq, Repr

/-- `User` from src/internal/domain/user.go (lines 10-16): exactly ID,
Name, Email, CreatedAt, UpdatedAt. -/
structure User where
  id : UUID
  name : String
  email : String
  createdAt : GoTime
  updatedAt : GoTime
deriving DecidableEq, Repr

/-- `Product` from src/internal/domain (product entity, lines 287-293 of
src/internal/app/endpoint.go's concatenation): exactly ID, Name, Price,
CreatedAt, UpdatedAt. -/
structure Product where
  id : UUID
  name : String
  price : Dec
  createdAt : GoTime
  updatedAt : GoTime
deriving DecidableEq, Repr

/-- `domain.NewUser`; `uuid.New()` and `time.Now()` supplied as
parameters. -/
def NewUser (name email : String) (genId : UUID) (now : GoTime) : User :=
  User.mk genId name email now now

/-- `User.UpdateDetails`: sets name, email and UpdatedAt. -/
def User.UpdateDetails (u : User) (name email : String) (now : GoTime) : User :=
  User.mk u.id name email u.createdAt now

/-- `domain.NewProduct`. -/
def NewProduct (name : String) (price : Dec) (genId : UUID) (now : GoTime) : Product :=
  Product.mk genId name price now now

/-- `domain.NewProductFromString`: parse the price with
`decimal.NewFromString`, answering the validation error
"invalid price format" on failure. -/
def NewProductFromString (name priceStr : String) (genId : UUID) (now : GoTime) :
    Except DomainError Product :=
  match parseDecimal priceStr with
  | none => Except.error (NewValidationError "invalid price format")
  | some price => Except.ok (NewProduct name price genId now)

/-- `Product.UpdateDetails`: sets name, price and UpdatedAt. -/
def Product.UpdateDetails (p : Product) (name : String) (price : Dec) (now : GoTime) :
    Product :=
  Product.mk p.id name price p.createdAt now

/-- `Product.UpdateDetailsFromString` (the Go method mutates in place;
modelled as returning the updated product). -/
def Product.UpdateDetailsFromString (p : Product) (name priceStr : String) (now : GoTime) :
    Except DomainError Product :=
  match parseDecimal priceStr with
  | none => Except.error (NewValidationError "invalid price format")
  | some price => Except.ok (p.UpdateDetails name price now)

/-- `Product.GetPriceString`: `p.Price.String()`. -/
def Product.GetPriceString (p : Product) : String :=
  decString p.price

/-! ## sqlc rows and mapping helpers, src/internal/usecase/product.go -/

structure SqlcUser where
  id : UUID
  name : String
  email : String
  createdAt : GoTime
  updatedAt : GoTime
deriving DecidableEq, Repr

structure SqlcProduct where
  id : UUID
  name : String
  price : PgNumeric
  createdAt : GoTime
  updatedAt : GoTime
deriving DecidableEq, Repr

def mapDBUserToDomain (dbUser : SqlcUser) : User :=
  User.mk dbUser.id dbUser.name dbUser.email dbUser.createdAt dbUser.updatedAt

/-- `mapDBProductToDomain`: renders the numeric to a string and reparses
it with `decimal.NewFromString`, discarding the error (`price, _ := ...`,
which leaves the zero decimal on failure). -/
def mapDBProductToDomain (dbProduct : SqlcProduct) : Product :=
  Product.mk dbProduct.id dbProduct.name
    ((parseDecimal (numericToString dbProduct.price)).getD (Dec.mk 0 0))
    dbProduct.createdAt dbProduct.updatedAt

/-- `strings.Contains`. -/
def goContains (s sub : String) : Bool :=
  decide (sub.data <:+: s.data)

/-! ## Usecase layer, src/internal/usecase/product.go

Database calls are nondeterministic inputs: each embedded operation takes
the result the store would answer (`Except` with the Go error string, or
a dedicated `DbGetErr` distinguishing `sql.ErrNoRows`).  `publishErr`
says whether the `Publish` call would fail; the returned list collects
the publish attempts actually made. -/

inductive DbGetErr
  | noRows
  | other (msg : String)
deriving DecidableEq, Repr

inductive DomainEvent
  | userCreated (u : User)
  | userUpdated (u : User)
  | userDeleted (u : User)
  | productCreated (p : Product)
  | productUpdated (p : Product)
  | productDeleted (p : Product)
  | productPriceChanged (p : Product) (previousPrice newPrice : String)
deriving DecidableEq, Repr

/-- `userUsecase.CreateUser` (lines 480-509): no validation of name or
email; duplicate-key store errors become conflicts; the created-event
publish failure is only logged. -/
def userUsecaseCreateUser (name email : String) (genId : UUID) (now : GoTime)
    (dbCreate : Except String SqlcUser) (publishErr : Bool) :
    Except DomainError User × List DomainEvent :=
  let _user := NewUser name email genId now
  let _ := publishErr
  match dbCreate with
  | Except.error err =>
      if goContains err "duplicate key" then
        (Except.error (NewConflictError ("user with email " ++ email ++ " already exists")), [])
      else
        (Except.error (NewInternalError ("failed to create user: " ++ err)), [])
  | Except.ok dbUser =>
      let createdUser := mapDBUserToDomain dbUser
      (Except.ok createdUser, [DomainEvent.userCreated createdUser])

/-- `userUsecase.GetUser`: `uuid.Parse` failure is a validation error,
`sql.ErrNoRows` a not-found, other store errors internal. -/
def userUsecaseGetUser (uuidParsed : Except String UUID)
    (dbGet : Except DbGetErr SqlcUser) : Except DomainError User :=
  match uuidParsed with
  | Except.error msg => Except.error (NewValidationError ("invalid user ID: " ++ msg))
  | Except.ok _ =>
      match dbGet with
      | Except.error DbGetErr.noRows => Except.error (NewNotFoundError "user not found")
      | Except.error (DbGetErr.other msg) =>
          Except.error (NewInternalError ("failed to get user: " ++ msg))
      | Except.ok dbUser => Except.ok (mapDBUserToDomain dbUser)

/-- `userUsecase.UpdateUser` (lines 528-561). -/
def userUsecaseUpdateUser (name email : String)
    (uuidParsed : Except String UUID) (dbGet : Except DbGetErr SqlcUser)
    (dbUpdate : Except String SqlcUser) (now : GoTime) (publishErr : Bool) :
    Except DomainError User × List DomainEvent :=
  let _ := publishErr
  match userUsecaseGetUser uuidParsed dbGet with
  | Except.error e => (Except.error e, [])
  | Except.ok user0 =>
      let _user := user0.UpdateDetails name email now
      match dbUpdate with
      | Except.error err =>
          if goContains err "duplicate key" then
            (Except.error (NewConflictError ("user with email " ++ email ++ " already exists")), [])
          else
            (Except.error (NewInternalError ("failed to update user: " ++ err)), [])
      | Except.ok dbUser =>
          let updatedUser := mapDBUserToDomain dbUser
          (Except.ok updatedUser, [DomainEvent.userUpdated updatedUser])

/-- `userUsecase.DeleteUser` (lines 563-580). -/
def userUsecaseDeleteUser (uuidParsed : Except String UUID)
    (dbGet : Except DbGetErr SqlcUser) (dbDelete : Option String)
    (publishErr : Bool) :
    Except DomainError Unit × List DomainEvent :=
  let _ := publishErr
  match userUsecaseGetUser uuidParsed dbGet with
  | Except.error e => (Except.error e, [])
  | Except.ok user =>
      match dbDelete with
      | some err => (Except.error (NewInternalError ("failed to delete user: " ++ err)), [])
      | none => (Except.ok (), [DomainEvent.userDeleted user])

/-- `productUsecase.CreateProduct` (lines 34-66). -/
def productUsecaseCreateProduct (name price : String) (genId : UUID) (now : GoTime)
    (dbCreate : Except String SqlcProduct) (publishErr : Bool) :
    Except DomainError Product × List DomainEvent :=
  let _ := publishErr
  match NewProductFromString name price genId now with
  | Except.error e => (Except.error e, [])
  | Except.ok product =>
      match goNumericScanString (decString product.price) with
      | none => (Except.error (NewValidationError "invalid price conversion"), [])
      | some _dbPrice =>
          match dbCreate with
          | Except.error err =>
              (Except.error (NewInternalError ("failed to create product: " ++ err)), [])
          | Except.ok dbProduct =>
              let createdProduct := mapDBProductToDomain dbProduct
              (Except.ok createdProduct, [DomainEvent.productCreated createdProduct])

/-- `productUsecase.GetProduct` (lines 68-83). -/
def productUsecaseGetProduct (uuidParsed : Except String UUID)
    (dbGet : Except DbGetErr SqlcProduct) : Except DomainError Product :=
  match uuidParsed with
  | Except.error msg => Except.error (NewValidationError ("invalid product ID: " ++ msg))
  | Except.ok _ =>
      match dbGet with
      | Except.error DbGetErr.noRows => Except.error (NewNotFoundError "product not found")
      | Except.error (DbGetErr.other msg) =>
          Except.error (NewInternalError ("failed to get product: " ++ msg))
      | Except.ok dbProduct => Except.ok (mapDBProductToDomain dbProduct)

/-- `productUsecase.UpdateProduct` (lines 85-133): remembers the old
price string, always publishes one updated event on store success, and
additionally publishes a price-changed event carrying the old and new
price strings exactly when they differ. -/
def productUsecaseUpdateProduct (name price : String)
    (uuidParsed : Except String UUID) (dbGet : Except DbGetErr SqlcProduct)
    (dbUpdate : Except String SqlcProduct) (now : GoTime) (publishErr : Bool) :
    Except DomainError Product × List DomainEvent :=
  let _ := publishErr
  match productUsecaseGetProduct uuidParsed dbGet with
  | Except.error e => (Except.error e, [])
  | Except.ok existingProduct =>
      let oldPrice := decString existingProduct.price
      match existingProduct.UpdateDetailsFromString name price now with
      | Except.error e => (Except.error e, [])
      | Except.ok updated =>
          match goNumericScanString (decString updated.price) with
          | none => (Except.error (NewValidationError "invalid price conversion"), [])
          | some _dbPrice =>
              match dbUpdate with
              | Except.error err =>
                  (Except.error (NewInternalError ("failed to update product: " ++ err)), [])
              | Except.ok dbProduct =>
                  let updatedProduct := mapDBProductToDomain dbProduct
                  let newPrice := decString updatedProduct.price
                  (Except.ok updatedProduct,
                    DomainEvent.productUpdated updatedProduct ::
                      (if oldPrice ≠ newPrice then
                        [DomainEvent.productPriceChanged updatedProduct oldPrice newPrice]
                      else []))

/-- `productUsecase.DeleteProduct` (lines 135-152). -/
def productUsecaseDeleteProduct (uuidParsed : Except String UUID)
    (dbGet : Except DbGetErr SqlcProduct) (dbDelete : Option String)
    (publishErr : Bool) :
    Except DomainError Unit × List DomainEvent :=
  let _ := publishErr
  match productUsecaseGetProduct uuidParsed dbGet with
  | Except.error e => (Except.error e, [])
  | Except.ok product =>
      match dbDelete with
      | some err => (Except.error (NewInternalError ("failed to delete product: " ++ err)), [])
      | none => (Except.ok (), [DomainEvent.productDeleted product])

/-! ## Base64, spec-model of encoding/base64 StdEncoding

Modelled from the spec: Go's `base64.StdEncoding`
`EncodeToString`/`DecodeString` (standard library, not under src/):
standard alphabet, `=` padding required to a multiple of four, `\r`/`\n`
ignored on decode, any other out-of-alphabet byte rejected. -/

def base64Chars : List Char :=
  "ABCDEFGHIJKLMNOPQRSTUVWXYZabcdefghijklmnopqrstuvwxyz0123456789+/".data

def base64CharVal (c : Char) : Option Nat :=
  base64Chars.findIdx? (fun x => x == c)

def base64DecodeGroups : List Char → Option (List Nat)
  | [] => some []
  | c0 :: c1 :: c2 :: c3 :: rest =>
      (match base64CharVal c0, base64CharVal c1 with
       | some v0, some v1 =>
         if c2 = '=' then
           if c3 = '=' ∧ rest = [] then some [v0 * 4 + v1 / 16] else none
         else
           match base64CharVal c2 with
           | some v2 =>
             if c3 = '=' then
               if rest = [] then some [v0 * 4 + v1 / 16, (v1 % 16) * 16 + v2 / 4]
               else none
             else
               match base64CharVal c3 with
               | some v3 =>
                 match base64DecodeGroups rest with
                 | some tail =>
                     some ((v0 * 4 + v1 / 16) :: ((v1 % 16) * 16 + v2 / 4) ::
                       ((v2 % 4) * 64 + v3) :: tail)
                 | none => none
               | none => none
           | none => none
       | _, _ => none)
  | _ => none

def base64DecodeString (s : String) : Option (List Nat) :=
  base64DecodeGroups (s.data.filter (fun c => !(c == '\r' || c == '\n')))

def base64EncodeGroups : List Nat → List Char
  | b0 :: b1 :: b2 :: rest =>
      base64Chars.getD (b0 / 4) 'A' :: base64Chars.getD ((b0 % 4) * 16 + b1 / 16) 'A' ::
        base64Chars.getD ((b1 % 16) * 4 + b2 / 64) 'A' :: base64Chars.getD (b2 % 64) 'A' ::
        base64EncodeGroups rest
  | [b0, b1] =>
      [base64Chars.getD (b0 / 4) 'A', base64Chars.getD ((b0 % 4) * 16 + b1 / 16) 'A',
        base64Chars.getD ((b1 % 16) * 4) 'A', '=']
  | [b0] =>
      [base64Chars.getD (b0 / 4) 'A', base64Chars.getD ((b0 % 4) * 16) 'A', '=', '=']
  | [] => []

/-- `[]byte(s)` for the ASCII strings produced here. -/
def stringBytes (s : String) : List Nat :=
  s.data.map Char.toNat

def base64EncodeString (s : String) : String :=
  String.mk (base64EncodeGroups (stringBytes s))

/-! ## fmt.Sscanf "%d", spec-model

Modelled from the spec: `fmt.Sscanf(s, "%d", &offset)` with `offset`
an `int32` (standard library, not under src/): skip leading blanks, read
an optionally signed run of decimal digits (at least one), ignore any
trailing input, and fail on `int32` overflow. -/

def isBlankChar (c : Char) : Bool := c == ' ' || c == '\t'

def int32Check (v : Int) : Option Int :=
  if v < -(2 ^ 31) ∨ v > 2 ^ 31 - 1 then none else some v

def sscanfDigits (cs : List Char) : Option Nat :=
  let digits := cs.takeWhile isDigitChar
  if digits = [] then none
  else some (digitsVal (digits.map charToDigitVal))

def goSscanfD (bytes : List Nat) : Option Int :=
  let cs := (bytes.map (fun b => Char.ofNat b)).dropWhile isBlankChar
  match cs with
  | '-' :: rest => (sscanfDigits rest).bind (fun n => int32Check (-(n : Int)))
  | '+' :: rest => (sscanfDigits rest).bind (fun n => int32Check (n : Int))
  | _ => (sscanfDigits cs).bind (fun n => int32Check (n : Int))

/-! ## Pagination, src/internal/usecase/product.go ListUsers/ListProducts -/

/-- The page-size clamp at the top of every List handler: `<= 0` becomes
10, then `> 100` becomes 100. -/
def clampPageSizeStep (pageSize : Int) : Int :=
  if pageSize ≤ 0 then 10 else pageSize

def clampPageSize (pageSize : Int) : Int :=
  if clampPageSizeStep pageSize > 100 then 100 else clampPageSizeStep pageSize

/-- `int32` wrap-around of Go's `offset + pageSize`. -/
def wrap32 (v : Int) : Int :=
  (v + 2 ^ 31) % 2 ^ 32 - 2 ^ 31

/-- `fmt.Sprintf("%d", v)`. -/
def intDecimalString (v : Int) : String :=
  String.mk (intToChars v)

/-- The page-token handling shared verbatim by the List endpoints:
offset 0 for an empty token, otherwise base64-decode and `Sscanf "%d"`,
failing with the validation errors "invalid page token" /
"invalid page token format". -/
def parsePageToken (pageToken : String) : Except DomainError Int :=
  if pageToken = "" then Except.ok 0
  else
    match base64DecodeString pageToken with
    | none => Except.error (NewValidationError "invalid page token")
    | some decodedOffset =>
        match goSscanfD decodedOffset with
        | none => Except.error (NewValidationError "invalid page token format")
        | some offset => Except.ok offset

/-- The post-query pagination tail shared by the List endpoints: detect a
next page from the look-ahead row, truncate, and encode the next token. -/
def paginateRows {α : Type} (pageSize offset : Int) (rows : List α) :
    List α × String :=
  let hasNextPage := (rows.length : Int) > pageSize
  let rows := if hasNextPage then rows.take pageSize.toNat else rows
  let nextPageToken :=
    if hasNextPage then base64EncodeString (intDecimalString (wrap32 (offset + pageSize)))
    else ""
  (rows, nextPageToken)

structure ListUsersRequest where
  pageSize : Int
  pageToken : String
  searchQuery : String
deriving Repr

structure ListUsersResponse where
  users : List User
  nextPageToken : String
  totalCount : Int
deriving Repr

/-- The store, as the answers it would give each query
(`sqlc.Querier` restricted to what ListUsers touches). -/
structure UserQuerier where
  listUsers : Int → Int → Except String (List SqlcUser)
  searchUsers : Int → Int → String → Except String (List SqlcUser)
  countUsers : Except String Int
  countUsersBySearch : String → Except String Int

/-- The query-selection branch at the heart of `ListUsers`: search when a
query is given, plain listing otherwise, always with the `pageSize + 1`
look-ahead limit. -/
def userQuerierRows (db : UserQuerier) (searchQuery : String) (limit offset : Int) :
    Except String (List SqlcUser) :=
  if searchQuery ≠ "" then db.searchUsers limit offset ("%" ++ searchQuery ++ "%")
  else db.listUsers limit offset

def userQuerierCount (db : UserQuerier) (searchQuery : String) : Except String Int :=
  if searchQuery ≠ "" then db.countUsersBySearch ("%" ++ searchQuery ++ "%")
  else db.countUsers

/-- `userUsecase.ListUsers` (lines 582-662). -/
def userUsecaseListUsers (req : ListUsersRequest) (db : UserQuerier) :
    Except DomainError ListUsersResponse :=
  match parsePageToken req.pageToken with
  | Except.error e => Except.error e
  | Except.ok offset =>
      match userQuerierRows db req.searchQuery (clampPageSize req.pageSize + 1) offset with
      | Except.error msg => Except.error (NewInternalError ("failed to list users: " ++ msg))
      | Except.ok dbUsers =>
          match userQuerierCount db req.searchQuery with
          | Except.error msg =>
              Except.error (NewInternalError ("failed to count users: " ++ msg))
          | Except.ok totalCount =>
              Except.ok
                (ListUsersResponse.mk
                  ((paginateRows (clampPageSize req.pageSize) offset dbUsers).1.map
                    mapDBUserToDomain)
                  (paginateRows (clampPageSize req.pageSize) offset dbUsers).2 totalCount)

structure PriceRange where
  minPrice : String
  maxPrice : String
deriving Repr

structure ListProductsRequest where
  pageSize : Int
  pageToken : String
  searchQuery : String
  priceRange : Option PriceRange
deriving Repr

structure ListProductsResponse where
  products : List Product
  nextPageToken : String
  totalCount : Int
deriving Repr

structure ProductQuerier where
  listProducts : Int → Int → Except String (List SqlcProduct)
  searchProducts : Int → Int → String → Except String (List SqlcProduct)
  listProductsByPriceRange : Int → Int → PgNumeric → PgNumeric → Except String (List SqlcProduct)
  searchProductsWithPriceRange :
    Int → Int → String → PgNumeric → PgNumeric → Except String (List SqlcProduct)
  countProducts : Except String Int

/-- Query pair used when no price range is given. -/
def productQuerierBase (db : ProductQuerier) (searchQuery : String) (limit offset : Int) :
    Except String (List SqlcProduct) :=
  if searchQuery ≠ "" then db.searchProducts limit offset ("%" ++ searchQuery ++ "%")
  else db.listProducts limit offset

/-- Query pair used when a price range is given. -/
def productQuerierRanged (db : ProductQuerier) (searchQuery : String) (limit offset : Int)
    (minPrice maxPrice : PgNumeric) : Except String (List SqlcProduct) :=
  if searchQuery ≠ "" then
    db.searchProductsWithPriceRange limit offset ("%" ++ searchQuery ++ "%") minPrice maxPrice
  else db.listProductsByPriceRange limit offset minPrice maxPrice

/-- The query-selection block of `ListProducts`: four query shapes keyed
on search string and price range, the price-range bounds going through
`pgtype.Numeric.Scan` with validation errors on failure, every query with
the `pageSize + 1` look-ahead limit. -/
def productQuerierRows (db : ProductQuerier) (searchQuery : String)
    (priceRange : Option PriceRange) (limit offset : Int) :
    Except DomainError (List SqlcProduct) :=
  match priceRange with
  | some pr =>
      (match goNumericScanString pr.minPrice with
       | none => Except.error (NewValidationError "invalid min price")
       | some minPrice =>
           match goNumericScanString pr.maxPrice with
           | none => Except.error (NewValidationError "invalid max price")
           | some maxPrice =>
               match productQuerierRanged db searchQuery limit offset minPrice maxPrice with
               | Except.error msg =>
                   Except.error (NewInternalError ("failed to list products: " ++ msg))
               | Except.ok rows => Except.ok rows)
  | none =>
      match productQuerierBase db searchQuery limit offset with
      | Except.error msg =>
          Except.error (NewInternalError ("failed to list products: " ++ msg))
      | Except.ok rows => Except.ok rows

/-- `productUsecase.ListProducts` (lines 154-258): same pagination as
ListUsers, plus query selection on search/price-range, whose malformed
bounds are further validation errors. -/
def productUsecaseListProducts (req : ListProductsRequest) (db : ProductQuerier) :
    Except DomainError ListProductsResponse :=
  match parsePageToken req.pageToken with
  | Except.error e => Except.error e
  | Except.ok offset =>
      match
        productQuerierRows db req.searchQuery req.priceRange
          (clampPageSize req.pageSize + 1) offset
      with
      | Except.error e => Except.error e
      | Except.ok dbProducts =>
          match db.countProducts with
          | Except.error msg =>
              Except.error (NewInternalError ("failed to count products: " ++ msg))
          | Except.ok totalCount =>
              Except.ok
                (ListProductsResponse.mk
                  ((paginateRows (clampPageSize req.pageSize) offset dbProducts).1.map
                    mapDBProductToDomain)
                  (paginateRows (clampPageSize req.pageSize) offset dbProducts).2 totalCount)

/-! ## Retry configuration, config package (src/unnamed/part_020) -/

/-- `RetryConsumerConfig`: durations in nanoseconds; the float64
multiplier/randomization factors as exact rationals (the values used are
exactly representable). -/
structure RetryConsumerConfig where
  type : String
  maxRetries : Int
  initialInterval : Int
  maxInterval : Int
  multiplier : ℚ
  maxElapsedTime : Int
  randomizationFactor : ℚ
deriving DecidableEq, Repr

def RetryConsumerTypeDefault : String := "default"
def RetryConsumerTypeConservative : String := "conservative"
def RetryConsumerTypeAggressive : String := "aggressive"

/-- `DefaultRetryConsumerConfig`: 3 retries, 100ms initial interval,
30s cap, multiplier 2.0, 5min elapsed cap, 10% jitter. -/
def DefaultRetryConsumerConfig : RetryConsumerConfig :=
  RetryConsumerConfig.mk "" 3 (100 * 1000000) (30 * 1000000000) 2
    (5 * 60 * 1000000000) (1 / 10)

def AggressiveRetryConsumerConfig : RetryConsumerConfig :=
  RetryConsumerConfig.mk "" 5 (50 * 1000000) (10 * 1000000000) (3 / 2)
    (2 * 60 * 1000000000) (1 / 5)

def ConservativeRetryConsumerConfig : RetryConsumerConfig :=
  RetryConsumerConfig.mk "" 2 (500 * 1000000) (60 * 1000000000) 3
    (10 * 60 * 1000000000) (1 / 20)

/-- `RetryConsumerConfig.GetRetry` on a possibly-nil receiver: pick the
named preset (default otherwise), then override every positive field. -/
def GetRetry (c : Option RetryConsumerConfig) : RetryConsumerConfig :=
  match c with
  | none => DefaultRetryConsumerConfig
  | some cfg =>
      let ret :=
        if cfg.type = RetryConsumerTypeDefault then DefaultRetryConsumerConfig
        else if cfg.type = RetryConsumerTypeConservative then ConservativeRetryConsumerConfig
        else if cfg.type = RetryConsumerTypeAggressive then AggressiveRetryConsumerConfig
        else DefaultRetryConsumerConfig
      let ret := if cfg.maxRetries > 0 then { ret with maxRetries := cfg.maxRetries } else ret
      let ret :=
        if cfg.initialInterval > 0 then { ret with initialInterval := cfg.initialInterval }
        else ret
      let ret := if cfg.maxInterval > 0 then { ret with maxInterval := cfg.maxInterval } else ret
      let ret := if cfg.multiplier > 0 then { ret with multiplier := cfg.multiplier } else ret
      let ret :=
        if cfg.maxElapsedTime > 0 then { ret with maxElapsedTime := cfg.maxElapsedTime }
        else ret
      if cfg.randomizationFactor > 0 then
        { ret with randomizationFactor := cfg.randomizationFactor }
      else ret

/-- The `middleware.Retry` value built by
`RetryConsumerConfig.MiddlewareRetry`. -/
structure MiddlewareRetryConfig where
  maxRetries : Int
  initialInterval : Int
  maxInterval : Int
  multiplier : ℚ
  maxElapsedTime : Int
  randomizationFactor : ℚ
deriving DecidableEq, Repr

def MiddlewareRetry (c : Option RetryConsumerConfig) : MiddlewareRetryConfig :=
  let retrier := GetRetry c
  MiddlewareRetryConfig.mk retrier.maxRetries retrier.initialInterval retrier.maxInterval
    retrier.multiplier retrier.maxElapsedTime retrier.randomizationFactor

/-- Modelled from the spec: the execution loop of the Watermill
`middleware.Retry` applied to the consumer router (third-party library,
not under src/): run the handler; on error retry, up to `maxRetries`
retries, stopping early on the first success.  `attemptFails k` is
whether the k-th run of the handler (0-based) returns an error. -/
def retryRunAux (attemptFails : Nat → Bool) : Nat → Nat → Bool
  | k, 0 => !attemptFails k
  | k, fuel + 1 =>
      if attemptFails k = false then true
      else retryRunAux attemptFails (k + 1) fuel

def retryRun (maxRetries : Int) (attemptFails : Nat → Bool) : Bool :=
  retryRunAux attemptFails 0 maxRetries.toNat

/-- Modelled from the spec: the backoff wait before the (k+1)-th run
under the exponential-backoff policy the middleware is configured with
(initial interval grown by the multiplier, capped at the maximum
interval; jitter ignored). -/
def retryInterval (cfg : MiddlewareRetryConfig) (k : Nat) : ℚ :=
  min ((cfg.initialInterval : ℚ) * cfg.multiplier ^ k) (cfg.maxInterval : ℚ)

/-! ## Theorems for dispatch topics (C3) and ack contract (C2) -/

/-- C3: for every event name `n`, the publish topic generated by the
EventBus and the subscribe topic generated by the EventProcessor are both
computed by `generateEventTopic` and equal `"events." ++ n`. -/
theorem dispatch_topics_agree (n : String) :
    eventBusPublishTopic n = eventProcessorSubscribeTopic n ∧
    eventBusPublishTopic n = generateEventTopic n ∧
    eventProcessorSubscribeTopic n = generateEventTopic n ∧
    generateEventTopic n = "events." ++ n := by
  refine ⟨rfl, rfl, rfl, rfl⟩

theorem retryRunAux_true_iff (f : Nat → Bool) :
    ∀ (fuel k : Nat), retryRunAux f k fuel = true ↔ ∃ j, j ≤ fuel ∧ f (k + j) = false := by
  intro fuel
  induction fuel with
  | zero =>
      intro k
      simp only [retryRunAux, Bool.not_eq_true']
      constructor
      · intro h; exact ⟨0, Nat.le_refl 0, by simpa using h⟩
      · rintro ⟨j, hj, hfj⟩
        have hj0 : j = 0 := Nat.le_zero.mp hj
        subst hj0
        simpa using hfj
  | succ n ih =>
      intro k
      simp only [retryRunAux]
      by_cases hf : f k = false
      · simp only [if_pos hf, true_iff]
        exact ⟨0, Nat.zero_le _, by simpa using hf⟩
      · rw [if_neg hf, ih (k + 1)]
        constructor
        · rintro ⟨j, hj, hfj⟩
          exact ⟨j + 1, by omega, by simpa [Nat.add_assoc, Nat.add_comm 1 j] using hfj⟩
        · rintro ⟨j, hj, hfj⟩
          match j, hj, hfj with
          | 0, _, hfj => exact absurd (by simpa using hfj) hf
          | j' + 1, hj, hfj =>
              exact ⟨j', by omega, by simpa [Nat.add_assoc, Nat.add_comm 1 j'] using hfj⟩

/-- C1: the retry/backoff middleware wired into the consumer's event
router (via `MiddlewareRetry` of the retry config) is configured with a
maximum of 3 retries and multiplier 2; a failing handler is re-run until
it succeeds or the 3 retries are exhausted (failure is final exactly
when the initial attempt and all 3 retries fail); and the backoff
intervals grow strictly (doubling) while below the interval cap. -/
theorem consumer_retry_with_backoff :
    (MiddlewareRetry none).maxRetries = 3 ∧
    (MiddlewareRetry none).multiplier = 2 ∧
    (∀ f : Nat → Bool,
      retryRun (MiddlewareRetry none).maxRetries f = true ↔ ∃ j, j ≤ 3 ∧ f j = false) ∧
    (∀ f : Nat → Bool, (∀ j, j ≤ 3 → f j = true) →
      retryRun (MiddlewareRetry none).maxRetries f = false) ∧
    (∀ k : Nat,
      ((MiddlewareRetry none).initialInterval : ℚ) *
          (MiddlewareRetry none).multiplier ^ (k + 1) ≤
          ((MiddlewareRetry none).maxInterval : ℚ) →
        retryInterval (MiddlewareRetry none) k < retryInterval (MiddlewareRetry none) (k + 1)) := by
  have hm : MiddlewareRetry none =
      MiddlewareRetryConfig.mk 3 100000000 30000000000 2 300000000000 (1 / 10) := rfl
  have hiff : ∀ f : Nat → Bool,
      retryRun (MiddlewareRetry none).maxRetries f = true ↔ ∃ j, j ≤ 3 ∧ f j = false := by
    intro f
    rw [hm]
    show retryRunAux f 0 (Int.toNat 3) = true ↔ _
    rw [retryRunAux_true_iff f]
    simp
  refine ⟨by rw [hm], by rw [hm], hiff, ?_, ?_⟩
  · intro f hall
    cases hb : retryRun (MiddlewareRetry none).maxRetries f with
    | false => rfl
    | true =>
        obtain ⟨j, hj, hfj⟩ := (hiff f).mp hb
        rw [hall j hj] at hfj
        cases hfj
  · intro k hcap
    rw [hm] at hcap ⊢
    unfold retryInterval at *
    simp only at hcap ⊢
    have hpos : (0 : ℚ) < 100000000 * 2 ^ k := by positivity
    have hdouble : (100000000 : ℚ) * 2 ^ (k + 1) = 2 * (100000000 * 2 ^ k) := by ring
    have h1 : (100000000 : ℚ) * 2 ^ k < 100000000 * 2 ^ (k + 1) := by
      rw [hdouble]; linarith
    push_cast at hcap ⊢
    rw [min_eq_left (le_of_lt (lt_of_lt_of_le h1 hcap)), min_eq_left hcap]
    exact h1

/-- Witness for C1: with the default configuration, a handler failing
its first two runs succeeds overall, a handler failing every run fails
overall, and the first backoff interval is strictly below the second. -/
theorem consumer_retry_with_backoff_witness :
    retryRun (MiddlewareRetry none).maxRetries (fun k => decide (k < 2)) = true ∧
    retryRun (MiddlewareRetry none).maxRetries (fun _ => true) = false ∧
    retryInterval (MiddlewareRetry none) 0 < retryInterval (MiddlewareRetry none) 1 := by
  refine ⟨?_, ?_, ?_⟩
  · exact (consumer_retry_with_backoff.2.2.1 _).mpr ⟨2, by norm_num⟩
  · exact consumer_retry_with_backoff.2.2.2.1 _ (fun j _ => rfl)
  · refine consumer_retry_with_backoff.2.2.2.2 0 ?_
    rw [show MiddlewareRetry none =
      MiddlewareRetryConfig.mk 3 100000000 30000000000 2 300000000000 (1 / 10) from rfl]
    norm_num

/-- C2: a message is Acked exactly when unmarshalling and the handler both
succeed, Nacked otherwise; a handler error always results in Nack
(in `Subscribe` there is no unmarshalling step, so only the handler
outcome decides). -/
theorem subscribe_ack_iff_success (unmarshalErr handlerErr : Bool) :
    (subscribeProtoHandleMessage unmarshalErr handlerErr = AckDecision.ack ↔
      unmarshalErr = false ∧ handlerErr = false) ∧
    (subscribeProtoHandleMessage unmarshalErr handlerErr = AckDecision.nack ↔
      unmarshalErr = true ∨ handlerErr = true) ∧
    (subscribeHandleMessage handlerErr = AckDecision.ack ↔ handlerErr = false) ∧
    (subscribeProtoHandleMessage unmarshalErr true = AckDecision.nack) ∧
    (subscribeHandleMessage true = AckDecision.nack) := by
  cases unmarshalErr <;> cases handlerErr <;>
    simp [subscribeProtoHandleMessage, subscribeHandleMessage]

/-- C5: `ToGRPCError` is total and deterministic: the code is
InvalidArgument for validation, NotFound for not-found, AlreadyExists for
conflict, Unauthenticated for unauthorized, PermissionDenied for
forbidden, Internal for internal and for every other `ErrorType` value,
and the message always equals the error's Message field. -/
theorem toGRPCError_total_mapping (e : DomainError) :
    e.toGRPCError.message = e.message ∧
    (e.type = errorTypeValidation → e.toGRPCError.code = GRPCCode.invalidArgument) ∧
    (e.type = errorTypeNotFound → e.toGRPCError.code = GRPCCode.notFound) ∧
    (e.type = errorTypeConflict → e.toGRPCError.code = GRPCCode.alreadyExists) ∧
    (e.type = errorTypeUnauthorized → e.toGRPCError.code = GRPCCode.unauthenticated) ∧
    (e.type = errorTypeForbidden → e.toGRPCError.code = GRPCCode.permissionDenied) ∧
    (e.type ≠ errorTypeValidation → e.type ≠ errorTypeNotFound →
      e.type ≠ errorTypeConflict → e.type ≠ errorTypeUnauthorized →
      e.type ≠ errorTypeForbidden → e.toGRPCError.code = GRPCCode.internal) := by
  unfold DomainError.toGRPCError
  refine ⟨?_, ?_, ?_, ?_, ?_, ?_, ?_⟩ <;>
    · intros
      split_ifs <;>
        simp_all [errorTypeValidation, errorTypeNotFound, errorTypeConflict,
          errorTypeInternal, errorTypeUnauthorized, errorTypeForbidden]

/-- Witness for C5: a concrete validation error maps to InvalidArgument
with its message preserved, and a concrete out-of-range error type maps
to Internal. -/
theorem toGRPCError_total_mapping_witness :
    (NewValidationError "bad input").toGRPCError.code = GRPCCode.invalidArgument ∧
    (NewValidationError "bad input").toGRPCError.message = "bad input" ∧
    (DomainError.mk 42 "weird" none).toGRPCError.code = GRPCCode.internal := by
  refine ⟨(toGRPCError_total_mapping _).2.1 (by decide), ?_,
    (toGRPCError_total_mapping (DomainError.mk 42 "weird" none)).2.2.2.2.2.2
      (by decide) (by decide) (by decide) (by decide) (by decide)⟩
  have hm := (toGRPCError_total_mapping (NewValidationError "bad input")).1
  simpa [NewValidationError] using hm

theorem clampPageSize_pos (ps : Int) : 0 < clampPageSize ps := by
  unfold clampPageSize clampPageSizeStep
  split_ifs <;> omega

theorem paginateRows_fst_length {α : Type} (pageSize offset : Int) (rows : List α)
    (hps : 0 ≤ pageSize) :
    ((paginateRows pageSize offset rows).1.length : Int) ≤ pageSize := by
  unfold paginateRows
  by_cases h : (rows.length : Int) > pageSize
  · simp only [if_pos h, List.length_take]
    have := Int.toNat_of_nonneg hps
    omega
  · simp only [if_neg h]
    omega

/-- C9: the effective page size is 10 for requested sizes `≤ 0`, 100 for
requested sizes `> 100`, and the requested size otherwise; every
successful ListUsers/ListProducts response holds at most that many
items. -/
theorem list_page_size_clamped :
    (∀ ps : Int,
      (ps ≤ 0 → clampPageSize ps = 10) ∧ (ps > 100 → clampPageSize ps = 100) ∧
        (0 < ps → ps ≤ 100 → clampPageSize ps = ps)) ∧
    (∀ req db resp, userUsecaseListUsers req db = Except.ok resp →
      (resp.users.length : Int) ≤ clampPageSize req.pageSize) ∧
    (∀ req db resp, productUsecaseListProducts req db = Except.ok resp →
      (resp.products.length : Int) ≤ clampPageSize req.pageSize) := by
  refine ⟨?_, ?_, ?_⟩
  · intro ps
    refine ⟨?_, ?_, ?_⟩ <;> · intros; unfold clampPageSize clampPageSizeStep; split_ifs <;> omega
  · intro req db resp h
    unfold userUsecaseListUsers at h
    cases htok : parsePageToken req.pageToken with
    | error e => simp only [htok] at h; exact Except.noConfusion h
    | ok offset =>
        simp only [htok] at h
        cases hdb : userQuerierRows db req.searchQuery (clampPageSize req.pageSize + 1) offset with
        | error msg => simp only [hdb] at h; exact Except.noConfusion h
        | ok dbUsers =>
            simp only [hdb] at h
            cases hcnt : userQuerierCount db req.searchQuery with
            | error msg => simp only [hcnt] at h; exact Except.noConfusion h
            | ok totalCount =>
                simp only [hcnt] at h
                injection h with h
                subst h
                simp only [List.length_map]
                exact paginateRows_fst_length _ _ dbUsers (le_of_lt (clampPageSize_pos _))
  · intro req db resp h
    unfold productUsecaseListProducts at h
    cases htok : parsePageToken req.pageToken with
    | error e => simp only [htok] at h; exact Except.noConfusion h
    | ok offset =>
        simp only [htok] at h
        cases hdb : productQuerierRows db req.searchQuery req.priceRange
            (clampPageSize req.pageSize + 1) offset with
        | error e => simp only [hdb] at h; exact Except.noConfusion h
        | ok dbProducts =>
            simp only [hdb] at h
            cases hcnt : db.countProducts with
            | error msg => simp only [hcnt] at h; exact Except.noConfusion h
            | ok totalCount =>
                simp only [hcnt] at h
                injection h with h
                subst h
                simp only [List.length_map]
                exact paginateRows_fst_length _ _ dbProducts (le_of_lt (clampPageSize_pos _))

/-- Witness for C9: clamping at concrete sizes, and a concrete ListUsers
call returning at most the effective page size. -/
theorem list_page_size_clamped_witness :
    clampPageSize (-5) = 10 ∧ clampPageSize 200 = 100 ∧ clampPageSize 7 = 7 ∧
    (((ListUsersResponse.mk [] "" 0).users.length : Int) ≤ clampPageSize 5) := by
  refine ⟨(list_page_size_clamped.1 (-5)).1 (by norm_num),
    (list_page_size_clamped.1 200).2.1 (by norm_num),
    (list_page_size_clamped.1 7).2.2 (by norm_num) (by norm_num),
    list_page_size_clamped.2.1 (ListUsersRequest.mk 5 "" "")
      (UserQuerier.mk (fun _ _ => Except.ok []) (fun _ _ _ => Except.ok [])
        (Except.ok 0) (fun _ => Except.ok 0))
      (ListUsersResponse.mk [] "" 0) rfl⟩

/-- C4: whenever a Create/Update/Delete reaches a successful store write,
exactly one corresponding event publish is attempted after the write, and
the operation's result is the written entity with no error, independent
of whether the publish fails (its error is only logged). -/
theorem write_success_publishes_once_never_fails :
    (∀ name email genId now dbUser pubErr,
      userUsecaseCreateUser name email genId now (Except.ok dbUser) pubErr =
        (Except.ok (mapDBUserToDomain dbUser),
          [DomainEvent.userCreated (mapDBUserToDomain dbUser)])) ∧
    (∀ name email up dg dbUser now pubErr u0,
      userUsecaseGetUser up dg = Except.ok u0 →
      userUsecaseUpdateUser name email up dg (Except.ok dbUser) now pubErr =
        (Except.ok (mapDBUserToDomain dbUser),
          [DomainEvent.userUpdated (mapDBUserToDomain dbUser)])) ∧
    (∀ up dg pubErr u,
      userUsecaseGetUser up dg = Except.ok u →
      userUsecaseDeleteUser up dg none pubErr = (Except.ok (), [DomainEvent.userDeleted u])) ∧
    (∀ name price genId now dbc pubErr p evs,
      productUsecaseCreateProduct name price genId now dbc pubErr = (Except.ok p, evs) →
      evs = [DomainEvent.productCreated p] ∧
        (∃ dbRow, dbc = Except.ok dbRow ∧ p = mapDBProductToDomain dbRow) ∧
        ∀ pubErr2,
          productUsecaseCreateProduct name price genId now dbc pubErr2 = (Except.ok p, evs)) ∧
    (∀ name price up dg dbU now pubErr p evs,
      productUsecaseUpdateProduct name price up dg dbU now pubErr = (Except.ok p, evs) →
      (evs = [DomainEvent.productUpdated p] ∨
        ∃ oldP newP, evs = [DomainEvent.productUpdated p,
          DomainEvent.productPriceChanged p oldP newP]) ∧
        ∀ pubErr2,
          productUsecaseUpdateProduct name price up dg dbU now pubErr2 = (Except.ok p, evs)) ∧
    (∀ up dg pubErr prod,
      productUsecaseGetProduct up dg = Except.ok prod →
      productUsecaseDeleteProduct up dg none pubErr =
        (Except.ok (), [DomainEvent.productDeleted prod])) := by
  refine ⟨?_, ?_, ?_, ?_, ?_, ?_⟩
  · intro name email genId now dbUser pubErr
    rfl
  · intro name email up dg dbUser now pubErr u0 hget
    unfold userUsecaseUpdateUser
    rw [hget]
  · intro up dg pubErr u hget
    unfold userUsecaseDeleteUser
    rw [hget]
  · intro name price genId now dbc pubErr p evs h
    have hind : ∀ pubErr2,
        productUsecaseCreateProduct name price genId now dbc pubErr2 =
          productUsecaseCreateProduct name price genId now dbc pubErr := fun _ => rfl
    unfold productUsecaseCreateProduct at h
    cases hnp : NewProductFromString name price genId now with
    | error e => simp only [hnp] at h; simp at h
    | ok product =>
        simp only [hnp] at h
        cases hscan : goNumericScanString (decString product.price) with
        | none => simp only [hscan] at h; simp at h
        | some dbPrice =>
            simp only [hscan] at h
            cases dbc with
            | error err => simp at h
            | ok dbRow =>
                simp only [Prod.mk.injEq] at h
                obtain ⟨h1, h2⟩ := h
                injection h1 with h1
                refine ⟨by rw [← h2, h1], ⟨dbRow, rfl, h1.symm⟩, ?_⟩
                intro pubErr2
                rw [hind pubErr2]
                unfold productUsecaseCreateProduct
                simp only [hnp, hscan]
                rw [← h2, h1]
  · intro name price up dg dbU now pubErr p evs h
    have hind : ∀ pubErr2,
        productUsecaseUpdateProduct name price up dg dbU now pubErr2 =
          productUsecaseUpdateProduct name price up dg dbU now pubErr := fun _ => rfl
    refine ⟨?_, fun pubErr2 => by rw [hind pubErr2, h]⟩
    unfold productUsecaseUpdateProduct at h
    cases hget : productUsecaseGetProduct up dg with
    | error e => simp only [hget] at h; simp at h
    | ok existing =>
        simp only [hget] at h
        cases hupd : existing.UpdateDetailsFromString name price now with
        | error e => simp only [hupd] at h; simp at h
        | ok updated =>
            simp only [hupd] at h
            cases hscan : goNumericScanString (decString updated.price) with
            | none => simp only [hscan] at h; simp at h
            | some dbPrice =>
                simp only [hscan] at h
                cases dbU with
                | error err => simp at h
                | ok dbRow =>
                    simp only [Prod.mk.injEq] at h
                    obtain ⟨h1, h2⟩ := h
                    injection h1 with h1
                    subst h1
                    by_cases hpc :
                        decString existing.price ≠
                          decString (mapDBProductToDomain dbRow).price
                    · right
                      refine ⟨decString existing.price,
                        decString (mapDBProductToDomain dbRow).price, ?_⟩
                      rw [← h2, if_pos hpc]
                    · left
                      rw [← h2, if_neg hpc]
  · intro up dg pubErr prod hget
    unfold productUsecaseDeleteProduct
    rw [hget]

/-- Witness for C4: a concrete successful update of a user and a concrete
successful product creation, each attempting exactly one publish. -/
theorem write_success_publishes_once_never_fails_witness :
    userUsecaseUpdateUser "n" "e" (Except.ok (UUID.mk 0))
        (Except.ok (SqlcUser.mk (UUID.mk 0) "a" "b" 0 0))
        (Except.ok (SqlcUser.mk (UUID.mk 0) "n" "e" 0 1)) 1 true =
      (Except.ok (mapDBUserToDomain (SqlcUser.mk (UUID.mk 0) "n" "e" 0 1)),
        [DomainEvent.userUpdated (mapDBUserToDomain (SqlcUser.mk (UUID.mk 0) "n" "e" 0 1))]) ∧
    ∀ pubErr2,
      productUsecaseCreateProduct "w" "1.5" (UUID.mk 1) 0
          (Except.ok (SqlcProduct.mk (UUID.mk 1) "w" (PgNumeric.mk 15 (-1) false true) 0 0))
          pubErr2 =
        (Except.ok (mapDBProductToDomain
            (SqlcProduct.mk (UUID.mk 1) "w" (PgNumeric.mk 15 (-1) false true) 0 0)),
          [DomainEvent.productCreated (mapDBProductToDomain
            (SqlcProduct.mk (UUID.mk 1) "w" (PgNumeric.mk 15 (-1) false true) 0 0))]) := by
  constructor
  · exact write_success_publishes_once_never_fails.2.1 "n" "e" (Except.ok (UUID.mk 0))
      (Except.ok (SqlcUser.mk (UUID.mk 0) "a" "b" 0 0))
      (SqlcUser.mk (UUID.mk 0) "n" "e" 0 1) 1 true
      (mapDBUserToDomain (SqlcUser.mk (UUID.mk 0) "a" "b" 0 0)) rfl
  · exact (write_success_publishes_once_never_fails.2.2.2.1 "w" "1.5" (UUID.mk 1) 0
      (Except.ok (SqlcProduct.mk (UUID.mk 1) "w" (PgNumeric.mk 15 (-1) false true) 0 0))
      false _ _ rfl).2.2

/-- C10: a successful UpdateProduct publishes exactly one
ProductUpdatedEvent, plus exactly one ProductPriceChangedEvent carrying
the previous and the new price string if and only if the price string
before the update differs from the one after it. -/
theorem update_product_price_change_event :
    ∀ name price up dg dbU now pubErr existing p evs,
      productUsecaseGetProduct up dg = Except.ok existing →
      productUsecaseUpdateProduct name price up dg dbU now pubErr = (Except.ok p, evs) →
      (decString existing.price = decString p.price →
          evs = [DomainEvent.productUpdated p]) ∧
      (decString existing.price ≠ decString p.price →
          evs = [DomainEvent.productUpdated p,
            DomainEvent.productPriceChanged p (decString existing.price)
              (decString p.price)]) := by
  intro name price up dg dbU now pubErr existing p evs hget h
  unfold productUsecaseUpdateProduct at h
  simp only [hget] at h
  cases hupd : existing.UpdateDetailsFromString name price now with
  | error e => simp only [hupd] at h; simp at h
  | ok updated =>
      simp only [hupd] at h
      cases hscan : goNumericScanString (decString updated.price) with
      | none => simp only [hscan] at h; simp at h
      | some dbPrice =>
          simp only [hscan] at h
          cases dbU with
          | error err => simp at h
          | ok dbRow =>
              simp only [Prod.mk.injEq] at h
              obtain ⟨h1, h2⟩ := h
              injection h1 with h1
              subst h1
              constructor
              · intro heq
                rw [← h2, if_neg (by simpa using heq)]
              · intro hne
                rw [← h2, if_pos hne]

/-- Witness for C10: a concrete update whose price string changes from
"1.5" to "2.5" publishes the updated event and the price-changed event
carrying those strings. -/
theorem update_product_price_change_event_witness :
    (productUsecaseUpdateProduct "w" "2.5" (Except.ok (UUID.mk 1))
        (Except.ok (SqlcProduct.mk (UUID.mk 1) "w" (PgNumeric.mk 15 (-1) false true) 0 0))
        (Except.ok (SqlcProduct.mk (UUID.mk 1) "w" (PgNumeric.mk 25 (-1) false true) 0 1))
        1 false).2 =
      [DomainEvent.productUpdated (mapDBProductToDomain
          (SqlcProduct.mk (UUID.mk 1) "w" (PgNumeric.mk 25 (-1) false true) 0 1)),
        DomainEvent.productPriceChanged (mapDBProductToDomain
            (SqlcProduct.mk (UUID.mk 1) "w" (PgNumeric.mk 25 (-1) false true) 0 1))
          "1.5" "2.5"] := by
  have h := update_product_price_change_event "w" "2.5" (Except.ok (UUID.mk 1))
      (Except.ok (SqlcProduct.mk (UUID.mk 1) "w" (PgNumeric.mk 15 (-1) false true) 0 0))
      (Except.ok (SqlcProduct.mk (UUID.mk 1) "w" (PgNumeric.mk 25 (-1) false true) 0 1))
      1 false
      (mapDBProductToDomain (SqlcProduct.mk (UUID.mk 1) "w" (PgNumeric.mk 15 (-1) false true) 0 0))
      (mapDBProductToDomain (SqlcProduct.mk (UUID.mk 1) "w" (PgNumeric.mk 25 (-1) false true) 0 1))
      ((productUsecaseUpdateProduct "w" "2.5" (Except.ok (UUID.mk 1))
        (Except.ok (SqlcProduct.mk (UUID.mk 1) "w" (PgNumeric.mk 15 (-1) false true) 0 0))
        (Except.ok (SqlcProduct.mk (UUID.mk 1) "w" (PgNumeric.mk 25 (-1) false true) 0 1))
        1 false).2)
      rfl rfl
  have h2 := h.2 (by decide)
  have e1 : decString (mapDBProductToDomain
      (SqlcProduct.mk (UUID.mk 1) "w" (PgNumeric.mk 15 (-1) false true) 0 0)).price = "1.5" :=
    rfl
  have e2 : decString (mapDBProductToDomain
      (SqlcProduct.mk (UUID.mk 1) "w" (PgNumeric.mk 25 (-1) false true) 0 1)).price = "2.5" :=
    rfl
  rw [e1, e2] at h2
  exact h2

/-- C8: User and Product are plain records of exactly the listed fields
(two values agreeing on them are equal); CreateUser/UpdateUser accept any
name and email without validation; and they answer the conflict error
"user with email ... already exists" exactly when the store error is a
duplicate-key violation. -/
theorem entities_plain_records_store_uniqueness :
    (∀ u v : User, u = v ↔
      u.id = v.id ∧ u.name = v.name ∧ u.email = v.email ∧
        u.createdAt = v.createdAt ∧ u.updatedAt = v.updatedAt) ∧
    (∀ p q : Product, p = q ↔
      p.id = q.id ∧ p.name = q.name ∧ p.price = q.price ∧
        p.createdAt = q.createdAt ∧ p.updatedAt = q.updatedAt) ∧
    (∀ name email genId now dbUser pubErr,
      (userUsecaseCreateUser name email genId now (Except.ok dbUser) pubErr).1 =
        Except.ok (mapDBUserToDomain dbUser)) ∧
    (∀ name email genId now err pubErr,
      (userUsecaseCreateUser name email genId now (Except.error err) pubErr).1 =
          Except.error (NewConflictError ("user with email " ++ email ++ " already exists")) ↔
        goContains err "duplicate key" = true) ∧
    (∀ name email up dg u0 dbErr now pubErr,
      userUsecaseGetUser up dg = Except.ok u0 →
      ((userUsecaseUpdateUser name email up dg (Except.error dbErr) now pubErr).1 =
          Except.error (NewConflictError ("user with email " ++ email ++ " already exists")) ↔
        goContains dbErr "duplicate key" = true)) := by
  refine ⟨?_, ?_, ?_, ?_, ?_⟩
  · intro u v
    constructor
    · intro h; subst h; exact ⟨rfl, rfl, rfl, rfl, rfl⟩
    · rintro ⟨h1, h2, h3, h4, h5⟩
      cases u; cases v
      simp_all
  · intro p q
    constructor
    · intro h; subst h; exact ⟨rfl, rfl, rfl, rfl, rfl⟩
    · rintro ⟨h1, h2, h3, h4, h5⟩
      cases p; cases q
      simp_all
  · intro name email genId now dbUser pubErr
    rfl
  · intro name email genId now err pubErr
    unfold userUsecaseCreateUser
    by_cases hdup : goContains err "duplicate key" = true
    · simp only [hdup, if_pos rfl]
      simp
    · rw [Bool.not_eq_true] at hdup
      simp only [hdup]
      constructor
      · intro hcontra
        injection hcontra with hcontra
        have ht := congrArg DomainError.type hcontra
        simp [NewInternalError, NewConflictError, errorTypeInternal,
          errorTypeConflict] at ht
      · intro h; cases h
  · intro name email up dg u0 dbErr now pubErr hget
    unfold userUsecaseUpdateUser
    simp only [hget]
    by_cases hdup : goContains dbErr "duplicate key" = true
    · simp only [hdup, if_pos rfl]
      simp
    · rw [Bool.not_eq_true] at hdup
      simp only [hdup]
      constructor
      · intro hcontra
        injection hcontra with hcontra
        have ht := congrArg DomainError.type hcontra
        simp [NewInternalError, NewConflictError, errorTypeInternal,
          errorTypeConflict] at ht
      · intro h; cases h

/-- Witness for C8: two concrete equal-field users are equal, a concrete
create succeeds with arbitrary strings, and a concrete duplicate-key
store error maps to the conflict error. -/
theorem entities_plain_records_store_uniqueness_witness :
    (User.mk (UUID.mk 3) "n" "e" 0 0 = User.mk (UUID.mk 3) "n" "e" 0 0) ∧
    (userUsecaseCreateUser "!!" "not-an-email" (UUID.mk 0) 0
        (Except.ok (SqlcUser.mk (UUID.mk 0) "!!" "not-an-email" 0 0)) false).1 =
      Except.ok (mapDBUserToDomain (SqlcUser.mk (UUID.mk 0) "!!" "not-an-email" 0 0)) ∧
    (userUsecaseCreateUser "n" "e" (UUID.mk 0) 0
        (Except.error "ERROR: duplicate key value violates unique constraint") false).1 =
      Except.error (NewConflictError "user with email e already exists") := by
  refine ⟨?_, entities_plain_records_store_uniqueness.2.2.1 "!!" "not-an-email"
    (UUID.mk 0) 0 (SqlcUser.mk (UUID.mk 0) "!!" "not-an-email" 0 0) false, ?_⟩
  · exact (entities_plain_records_store_uniqueness.1 _ _).mpr ⟨rfl, rfl, rfl, rfl, rfl⟩
  · have h := (entities_plain_records_store_uniqueness.2.2.2.1 "n" "e" (UUID.mk 0) 0
      "ERROR: duplicate key value violates unique constraint" false).mpr (by decide)
    simpa using h

theorem parsePageToken_error_validation (t : String) (e : DomainError)
    (h : parsePageToken t = Except.error e) : e.type = errorTypeValidation := by
  unfold parsePageToken at h
  by_cases ht : t = ""
  · rw [if_pos ht] at h; exact Except.noConfusion h
  · rw [if_neg ht] at h
    cases hdec : base64DecodeString t with
    | none =>
        simp only [hdec] at h
        injection h with h
        rw [← h]; rfl
    | some bs =>
        simp only [hdec] at h
        cases hps : goSscanfD bs with
        | none =>
            simp only [hps] at h
            injection h with h
            rw [← h]; rfl
        | some off => simp only [hps] at h; exact Except.noConfusion h

theorem productQuerierRows_error_cases (db : ProductQuerier) (q : String)
    (prr : Option PriceRange) (limit offset : Int) (e : DomainError)
    (h : productQuerierRows db q prr limit offset = Except.error e) :
    (e.type = errorTypeValidation ∧ ∃ pr, prr = some pr ∧
        (goNumericScanString pr.minPrice = none ∨ goNumericScanString pr.maxPrice = none)) ∨
      e.type = errorTypeInternal := by
  unfold productQuerierRows at h
  cases prr with
  | none =>
      cases hb : productQuerierBase db q limit offset with
      | error msg =>
          simp only [hb] at h
          injection h with h
          right; rw [← h]; rfl
      | ok rows => simp only [hb] at h; exact Except.noConfusion h
  | some pr =>
      cases hmin : goNumericScanString pr.minPrice with
      | none =>
          simp only [hmin] at h
          injection h with h
          left
          exact ⟨by rw [← h]; rfl, pr, rfl, Or.inl hmin⟩
      | some minP =>
          simp only [hmin] at h
          cases hmax : goNumericScanString pr.maxPrice with
          | none =>
              simp only [hmax] at h
              injection h with h
              left
              exact ⟨by rw [← h]; rfl, pr, rfl, Or.inr hmax⟩
          | some maxP =>
              simp only [hmax] at h
              cases hr : productQuerierRanged db q limit offset minP maxP with
              | error msg =>
                  simp only [hr] at h
                  injection h with h
                  right; rw [← h]; rfl
              | ok rows => simp only [hr] at h; exact Except.noConfusion h

theorem productQuerierRows_scan_fail (db : ProductQuerier) (q : String)
    (pr : PriceRange) (limit offset : Int)
    (hbad : goNumericScanString pr.minPrice = none ∨ goNumericScanString pr.maxPrice = none) :
    ∃ e, productQuerierRows db q (some pr) limit offset = Except.error e ∧
      e.type = errorTypeValidation := by
  cases hmin : goNumericScanString pr.minPrice with
  | none =>
      refine ⟨NewValidationError "invalid min price", ?_, rfl⟩
      unfold productQuerierRows
      simp only [hmin]
  | some minP =>
      cases hmax : goNumericScanString pr.maxPrice with
      | none =>
          refine ⟨NewValidationError "invalid max price", ?_, rfl⟩
          unfold productQuerierRows
          simp only [hmin, hmax]
      | some maxP =>
          rw [hmin] at hbad
          rw [hmax] at hbad
          rcases hbad with hbad | hbad <;> exact Option.noConfusion hbad

theorem paginateRows_snd {α : Type} (pageSize offset : Int) (rows : List α) :
    (paginateRows pageSize offset rows).2 =
      if (rows.length : Int) > pageSize then
        base64EncodeString (intDecimalString (wrap32 (offset + pageSize)))
      else "" := by
  unfold paginateRows
  by_cases h : (rows.length : Int) > pageSize <;> simp [h]

/-- C6 (amended): offset handling of the page token — offset 0 for an
empty token, base64-decode + `Sscanf "%d"` otherwise, failing with a
validation error exactly when decoding or parsing fails; for ListUsers a
validation error occurs exactly on a bad page token, while ListProducts
additionally fails with a validation error when a supplied price-range
bound does not scan as a numeric; the response's NextPageToken is the
base64 encoding of the decimal string of offset + pageSize (as `int32`
addition) exactly when the store returned more than pageSize rows, and
empty otherwise. -/
theorem pagination_offset_token :
    parsePageToken "" = Except.ok 0 ∧
    (∀ t : String, t ≠ "" →
      ((∃ e, parsePageToken t = Except.error e ∧ e.type = errorTypeValidation) ↔
        (base64DecodeString t = none ∨
          ∃ bs, base64DecodeString t = some bs ∧ goSscanfD bs = none))) ∧
    (∀ req db,
      (∃ e, userUsecaseListUsers req db = Except.error e ∧ e.type = errorTypeValidation) ↔
        ∃ e, parsePageToken req.pageToken = Except.error e) ∧
    (∀ req db,
      (∃ e, productUsecaseListProducts req db = Except.error e ∧
          e.type = errorTypeValidation) ↔
        ((∃ e, parsePageToken req.pageToken = Except.error e) ∨
          ∃ pr, req.priceRange = some pr ∧
            (goNumericScanString pr.minPrice = none ∨
              goNumericScanString pr.maxPrice = none))) ∧
    (∀ req db resp offset rows,
      parsePageToken req.pageToken = Except.ok offset →
      userQuerierRows db req.searchQuery (clampPageSize req.pageSize + 1) offset =
        Except.ok rows →
      userUsecaseListUsers req db = Except.ok resp →
      ((rows.length : Int) > clampPageSize req.pageSize →
          resp.nextPageToken = base64EncodeString
            (intDecimalString (wrap32 (offset + clampPageSize req.pageSize)))) ∧
        (¬(rows.length : Int) > clampPageSize req.pageSize → resp.nextPageToken = "")) ∧
    (∀ req db resp offset rows,
      parsePageToken req.pageToken = Except.ok offset →
      productQuerierRows db req.searchQuery req.priceRange
          (clampPageSize req.pageSize + 1) offset = Except.ok rows →
      productUsecaseListProducts req db = Except.ok resp →
      ((rows.length : Int) > clampPageSize req.pageSize →
          resp.nextPageToken = base64EncodeString
            (intDecimalString (wrap32 (offset + clampPageSize req.pageSize)))) ∧
        (¬(rows.length : Int) > clampPageSize req.pageSize → resp.nextPageToken = "")) ∧
    (∀ v : Int, -(2 ^ 31) ≤ v → v < 2 ^ 31 → wrap32 v = v) := by
  refine ⟨rfl, ?_, ?_, ?_, ?_, ?_, ?_⟩
  · intro t ht
    constructor
    · rintro ⟨e, he, -⟩
      unfold parsePageToken at he
      rw [if_neg ht] at he
      cases hdec : base64DecodeString t with
      | none => exact Or.inl rfl
      | some bs =>
          simp only [hdec] at he
          cases hps : goSscanfD bs with
          | none => exact Or.inr ⟨bs, rfl, hps⟩
          | some off => simp only [hps] at he; exact Except.noConfusion he
    · intro hfail
      unfold parsePageToken
      rw [if_neg ht]
      rcases hfail with hdec | ⟨bs, hdec, hps⟩
      · simp only [hdec]
        exact ⟨NewValidationError "invalid page token", rfl, rfl⟩
      · simp only [hdec, hps]
        exact ⟨NewValidationError "invalid page token format", rfl, rfl⟩
  · intro req db
    constructor
    · rintro ⟨e, he, ht⟩
      cases htok : parsePageToken req.pageToken with
      | error e2 => exact ⟨e2, rfl⟩
      | ok offset =>
          unfold userUsecaseListUsers at he
          simp only [htok] at he
          cases hq : userQuerierRows db req.searchQuery
              (clampPageSize req.pageSize + 1) offset with
          | error msg =>
              simp only [hq] at he
              injection he with he
              rw [← he] at ht
              simp [NewInternalError, errorTypeInternal, errorTypeValidation] at ht
          | ok rows =>
              simp only [hq] at he
              cases hc : userQuerierCount db req.searchQuery with
              | error msg =>
                  simp only [hc] at he
                  injection he with he
                  rw [← he] at ht
                  simp [NewInternalError, errorTypeInternal, errorTypeValidation] at ht
              | ok total => simp only [hc] at he; exact Except.noConfusion he
    · rintro ⟨e2, htok⟩
      refine ⟨e2, ?_, parsePageToken_error_validation _ _ htok⟩
      unfold userUsecaseListUsers
      simp only [htok]
  · intro req db
    constructor
    · rintro ⟨e, he, ht⟩
      cases htok : parsePageToken req.pageToken with
      | error e2 => exact Or.inl ⟨e2, rfl⟩
      | ok offset =>
          unfold productUsecaseListProducts at he
          simp only [htok] at he
          cases hq : productQuerierRows db req.searchQuery req.priceRange
              (clampPageSize req.pageSize + 1) offset with
          | error e1 =>
              simp only [hq] at he
              injection he with he
              subst he
              rcases productQuerierRows_error_cases _ _ _ _ _ _ hq with ⟨-, hpr⟩ | hint
              · exact Or.inr hpr
              · rw [hint] at ht
                simp [errorTypeInternal, errorTypeValidation] at ht
          | ok rows =>
              simp only [hq] at he
              cases hc : db.countProducts with
              | error msg =>
                  simp only [hc] at he
                  injection he with he
                  rw [← he] at ht
                  simp [NewInternalError, errorTypeInternal, errorTypeValidation] at ht
              | ok total => simp only [hc] at he; exact Except.noConfusion he
    · rintro (⟨e2, htok⟩ | ⟨pr, hpr, hbad⟩)
      · refine ⟨e2, ?_, parsePageToken_error_validation _ _ htok⟩
        unfold productUsecaseListProducts
        simp only [htok]
      · cases htok : parsePageToken req.pageToken with
        | error e2 =>
            refine ⟨e2, ?_, parsePageToken_error_validation _ _ htok⟩
            unfold productUsecaseListProducts
            simp only [htok]
        | ok offset =>
            obtain ⟨e1, he1, ht1⟩ :=
              productQuerierRows_scan_fail db req.searchQuery pr
                (clampPageSize req.pageSize + 1) offset hbad
            refine ⟨e1, ?_, ht1⟩
            unfold productUsecaseListProducts
            simp only [htok]
            rw [← hpr] at he1
            simp only [he1]
  · intro req db resp offset rows htok hq h
    unfold userUsecaseListUsers at h
    simp only [htok, hq] at h
    cases hc : userQuerierCount db req.searchQuery with
    | error msg => simp only [hc] at h; exact Except.noConfusion h
    | ok total =>
        simp only [hc] at h
        injection h with h
        subst h
        rw [paginateRows_snd]
        constructor
        · intro hgt; rw [if_pos hgt]
        · intro hle; rw [if_neg hle]
  · intro req db resp offset rows htok hq h
    unfold productUsecaseListProducts at h
    simp only [htok, hq] at h
    cases hc : db.countProducts with
    | error msg => simp only [hc] at h; exact Except.noConfusion h
    | ok total =>
        simp only [hc] at h
        injection h with h
        subst h
        rw [paginateRows_snd]
        constructor
        · intro hgt; rw [if_pos hgt]
        · intro hle; rw [if_neg hle]
  · intro v h1 h2
    unfold wrap32
    omega

/-- Witness for C6 (amended): a malformed token yields a validation
error; a concrete ListUsers call over an 11-row store at effective page
size 10 answers the token `"MTA="` (base64 of "10"); and `int32` addition
without overflow is plain addition. -/
theorem pagination_offset_token_witness :
    (∃ e, parsePageToken "!!!" = Except.error e ∧ e.type = errorTypeValidation) ∧
    (ListUsersResponse.mk
        (List.map mapDBUserToDomain (List.replicate 10 (SqlcUser.mk (UUID.mk 0) "a" "b" 0 0)))
        "MTA=" 11).nextPageToken =
      base64EncodeString (intDecimalString (wrap32 (0 + clampPageSize 10))) ∧
    wrap32 10 = 10 := by
  refine ⟨?_, ?_, pagination_offset_token.2.2.2.2.2.2 10 (by norm_num) (by norm_num)⟩
  · exact (pagination_offset_token.2.1 "!!!" (by decide)).mpr (Or.inl rfl)
  · exact (pagination_offset_token.2.2.2.2.1
      (ListUsersRequest.mk 10 "" "")
      (UserQuerier.mk
        (fun _ _ => Except.ok (List.replicate 11 (SqlcUser.mk (UUID.mk 0) "a" "b" 0 0)))
        (fun _ _ _ => Except.ok []) (Except.ok 11) (fun _ => Except.ok 0))
      (ListUsersResponse.mk
        (List.map mapDBUserToDomain (List.replicate 10 (SqlcUser.mk (UUID.mk 0) "a" "b" 0 0)))
        "MTA=" 11)
      0 (List.replicate 11 (SqlcUser.mk (UUID.mk 0) "a" "b" 0 0))
      rfl rfl rfl).1 (by decide)

/-- Counterexample for C6 as stated: a ListProducts request whose page
token is empty (so token decoding/parsing succeeds) still fails with a
validation error, because its price-range lower bound "abc" does not
scan; so "fails with a validation error exactly when decoding or parsing
[the token] fails" is false for ListProducts. -/
theorem pagination_offset_token_cex :
    ¬((∃ e, productUsecaseListProducts
          (ListProductsRequest.mk 10 "" "" (some (PriceRange.mk "abc" "1")))
          (ProductQuerier.mk (fun _ _ => Except.ok []) (fun _ _ _ => Except.ok [])
            (fun _ _ _ _ => Except.ok []) (fun _ _ _ _ _ => Except.ok [])
            (Except.ok 0)) = Except.error e ∧
        e.type = errorTypeValidation) ↔
      ∃ e, parsePageToken
          (ListProductsRequest.mk 10 "" "" (some (PriceRange.mk "abc" "1"))).pageToken =
        Except.error e) := by
  intro hiff
  obtain ⟨e, he⟩ := hiff.mp ⟨NewValidationError "invalid min price", rfl, rfl⟩
  exact Except.noConfusion he

/-! ## Digit arithmetic lemmas for the decimal roundtrip (C7) -/

theorem digitsVal_foldl (l : List Nat) :
    ∀ a : Nat, l.foldl (fun acc d => acc * 10 + d) a = a * 10 ^ l.length + digitsVal l := by
  induction l with
  | nil => intro a; simp [digitsVal]
  | cons d rest ih =>
      intro a
      simp only [List.foldl_cons, List.length_cons, digitsVal]
      rw [ih (a * 10 + d), ih (0 * 10 + d)]
      ring

theorem digitsVal_cons (d : Nat) (rest : List Nat) :
    digitsVal (d :: rest) = d * 10 ^ rest.length + digitsVal rest := by
  show (d :: rest).foldl (fun acc d => acc * 10 + d) 0 = _
  simp only [List.foldl_cons]
  rw [digitsVal_foldl rest (0 * 10 + d)]
  ring_nf

theorem digitsVal_append (a b : List Nat) :
    digitsVal (a ++ b) = digitsVal a * 10 ^ b.length + digitsVal b := by
  show (a ++ b).foldl (fun acc d => acc * 10 + d) 0 = _
  rw [List.foldl_append]
  exact digitsVal_foldl b (digitsVal a)

theorem digitsVal_replicate_zero (k : Nat) : digitsVal (List.replicate k 0) = 0 := by
  induction k with
  | zero => rfl
  | succ n ih => rw [List.replicate_succ, digitsVal_cons, ih]; simp

theorem digitsVal_append_zeros (a : List Nat) (k : Nat) :
    digitsVal (a ++ List.replicate k 0) = digitsVal a * 10 ^ k := by
  rw [digitsVal_append, digitsVal_replicate_zero, List.length_replicate]
  omega

theorem natToDigitsAux_spec :
    ∀ (fuel n : Nat), n ≤ fuel →
      digitsVal (natToDigitsAux fuel n) = n ∧
        natToDigitsAux fuel n ≠ [] ∧ ∀ d ∈ natToDigitsAux fuel n, d < 10 := by
  intro fuel
  induction fuel with
  | zero =>
      intro n hn
      have h0 : n = 0 := Nat.le_zero.mp hn
      subst h0
      refine ⟨rfl, by simp [natToDigitsAux], ?_⟩
      intro d hd
      simp [natToDigitsAux] at hd
      omega
  | succ f ih =>
      intro n hn
      by_cases h10 : n < 10
      · simp only [natToDigitsAux, if_pos h10]
        refine ⟨by simp [digitsVal], by simp, ?_⟩
        intro d hd
        simp at hd
        omega
      · simp only [natToDigitsAux, if_neg h10]
        have hdiv : n / 10 ≤ f := by omega
        obtain ⟨hv, hne, hlt⟩ := ih (n / 10) hdiv
        refine ⟨?_, by simp, ?_⟩
        · rw [digitsVal_append, hv]
          simp [digitsVal]
          omega
        · intro d hd
          rw [List.mem_append] at hd
          rcases hd with hd | hd
          · exact hlt d hd
          · simp at hd
            omega

theorem digitsVal_natToDigits (n : Nat) : digitsVal (natToDigits n) = n :=
  (natToDigitsAux_spec n n le_rfl).1

theorem natToDigits_ne_nil (n : Nat) : natToDigits n ≠ [] :=
  (natToDigitsAux_spec n n le_rfl).2.1

theorem natToDigits_lt10 (n : Nat) : ∀ d ∈ natToDigits n, d < 10 :=
  (natToDigitsAux_spec n n le_rfl).2.2

theorem digitToChar_spec (d : Nat) (hd : d < 10) :
    isDigitChar (digitToChar d) = true ∧ charToDigitVal (digitToChar d) = d := by
  interval_cases d <;> exact ⟨rfl, rfl⟩

theorem isDigitChar_toNat (c : Char) (h : isDigitChar c = true) :
    48 ≤ c.toNat ∧ c.toNat ≤ 57 := by
  simpa [isDigitChar] using h

theorem digit_not_special (c : Char) (h : isDigitChar c = true) :
    c ≠ 'e' ∧ c ≠ 'E' ∧ c ≠ '.' ∧ c ≠ '-' ∧ c ≠ '+' := by
  obtain ⟨h1, h2⟩ := isDigitChar_toNat c h
  refine ⟨?_, ?_, ?_, ?_, ?_⟩ <;> · rintro rfl; revert h1 h2; decide

theorem natToChars_digits (n : Nat) : ∀ c ∈ natToChars n, isDigitChar c = true := by
  intro c hc
  unfold natToChars at hc
  rw [List.mem_map] at hc
  obtain ⟨d, hd, rfl⟩ := hc
  exact (digitToChar_spec d (natToDigits_lt10 n d hd)).1

theorem natToChars_ne_nil (n : Nat) : natToChars n ≠ [] := by
  unfold natToChars
  simp [natToDigits_ne_nil n]

theorem map_charToDigitVal_natToChars (n : Nat) :
    (natToChars n).map charToDigitVal = natToDigits n := by
  unfold natToChars
  rw [List.map_map]
  conv_rhs => rw [← List.map_id (natToDigits n)]
  apply List.map_congr_left
  intro d hd
  exact (digitToChar_spec d (natToDigits_lt10 n d hd)).2

theorem parseNatDigits_natToChars (n : Nat) : parseNatDigits (natToChars n) = some n := by
  unfold parseNatDigits
  rw [if_neg (natToChars_ne_nil n), if_pos]
  · rw [map_charToDigitVal_natToChars, digitsVal_natToDigits]
  · rw [List.all_eq_true]
    exact natToChars_digits n

theorem goParseIntChars_digits (cs : List Char) (hne : cs ≠ [])
    (hdig : ∀ c ∈ cs, isDigitChar c = true) :
    goParseIntChars cs = some ((digitsVal (cs.map charToDigitVal) : Nat) : Int) := by
  cases cs with
  | nil => exact absurd rfl hne
  | cons c rest =>
      have hc := hdig c (List.mem_cons_self c rest)
      obtain ⟨-, -, -, hm, hp⟩ := digit_not_special c hc
      simp only [goParseIntChars]
      rw [if_neg hp, if_neg hm]
      unfold parseNatDigits
      rw [if_neg (by simp), if_pos]
      · rfl
      · rw [List.all_eq_true]
        exact hdig

theorem goParseIntChars_intToChars (v : Int) : goParseIntChars (intToChars v) = some v := by
  unfold intToChars
  by_cases hv : v < 0
  · rw [if_pos hv]
    show goParseIntChars ('-' :: natToChars v.natAbs) = some v
    simp [goParseIntChars, parseNatDigits_natToChars, abs_of_neg hv]
  · rw [if_neg hv]
    rw [goParseIntChars_digits _ (natToChars_ne_nil _) (natToChars_digits _)]
    rw [map_charToDigitVal_natToChars, digitsVal_natToDigits]
    congr 1
    omega

theorem trimTrailingZeroChars_spec (l : List Char) :
    ∃ k, l = trimTrailingZeroChars l ++ List.replicate k '0' := by
  refine ⟨(l.reverse.takeWhile (fun c => c = '0')).length, ?_⟩
  have hrep : l.reverse.takeWhile (fun c => c = '0') =
      List.replicate (l.reverse.takeWhile (fun c => c = '0')).length '0' := by
    apply List.eq_replicate_of_mem
    intro b hb
    have := List.mem_takeWhile_imp hb
    simpa using this
  calc l = l.reverse.reverse := (List.reverse_reverse l).symm
    _ = (l.reverse.takeWhile (fun c => c = '0') ++
          l.reverse.dropWhile (fun c => c = '0')).reverse := by
        rw [List.takeWhile_append_dropWhile]
    _ = (l.reverse.dropWhile (fun c => c = '0')).reverse ++
          (l.reverse.takeWhile (fun c => c = '0')).reverse := by
        rw [List.reverse_append]
    _ = trimTrailingZeroChars l ++
          List.replicate (l.reverse.takeWhile (fun c => c = '0')).length '0' := by
        rw [trimTrailingZeroChars]
        congr 1
        rw [hrep]
        simp [List.reverse_replicate]

theorem trimTrailingZeroChars_subset (l : List Char) :
    ∀ c ∈ trimTrailingZeroChars l, c ∈ l := by
  intro c hc
  unfold trimTrailingZeroChars at hc
  rw [List.mem_reverse] at hc
  have := (List.dropWhile_sublist (p := fun c => c = '0') (l := l.reverse)).subset hc
  rwa [List.mem_reverse] at this

theorem goSplitFirst_eq_none (p : Char → Bool) (l : List Char)
    (h : ∀ c ∈ l, p c = false) : goSplitFirst p l = none := by
  induction l with
  | nil => rfl
  | cons c rest ih =>
      unfold goSplitFirst
      rw [if_neg (by rw [h c (List.mem_cons_self c rest)]; simp)]
      rw [ih (fun d hd => h d (List.mem_cons_of_mem c hd))]

theorem goSplitFirst_append (p : Char → Bool) (a : List Char) (c0 : Char) (b : List Char)
    (ha : ∀ c ∈ a, p c = false) (hc : p c0 = true) :
    goSplitFirst p (a ++ c0 :: b) = some (a, b) := by
  induction a with
  | nil =>
      simp only [List.nil_append]
      unfold goSplitFirst
      rw [if_pos hc]
  | cons c rest ih =>
      simp only [List.cons_append]
      unfold goSplitFirst
      rw [if_neg (by rw [ha c (List.mem_cons_self c rest)]; simp)]
      rw [ih (fun d hd => ha d (List.mem_cons_of_mem c hd))]

theorem mkDecChecked_some (v e : Int) (d : Dec) (h : mkDecChecked v e = some d) :
    d = Dec.mk v e ∧ -(2 ^ 31) ≤ e ∧ e ≤ 2 ^ 31 - 1 := by
  unfold mkDecChecked at h
  split_ifs at h with hb
  injection h with h
  push_neg at hb
  exact ⟨h.symm, by omega, by omega⟩

theorem parseMantissa_exp_bound (v : List Char) (exp : Int) (d : Dec)
    (h : parseMantissa v exp = some d) : -(2 ^ 31) ≤ d.exp := by
  unfold parseMantissa at h
  cases hs : goSplitFirst (fun c => c = '.') v with
  | none =>
      simp only [hs] at h
      cases hp : goParseIntChars v with
      | none => simp only [hp] at h; exact Option.noConfusion h
      | some v0 =>
          simp only [hp] at h
          obtain ⟨hd, hb, -⟩ := mkDecChecked_some _ _ _ h
          rw [hd]
          exact hb
  | some pr =>
      obtain ⟨ip, fp⟩ := pr
      simp only [hs] at h
      split_ifs at h with hany
      cases hp : goParseIntChars (ip ++ fp) with
        | none => simp only [hp] at h; exact Option.noConfusion h
        | some v0 =>
            simp only [hp] at h
            obtain ⟨hd, hb, -⟩ := mkDecChecked_some _ _ _ h
            rw [hd]
            exact hb

theorem parseDecimalChars_exp_bound (cs : List Char) (d : Dec)
    (h : parseDecimalChars cs = some d) : -(2 ^ 31) ≤ d.exp := by
  unfold parseDecimalChars at h
  cases he : goSplitFirst (fun c => c = 'e' || c = 'E') cs with
  | none =>
      simp only [he] at h
      exact parseMantissa_exp_bound _ _ _ h
  | some pr =>
      obtain ⟨m, ep⟩ := pr
      simp only [he] at h
      cases hp : goParseInt32Chars ep with
      | none => simp only [hp] at h; exact Option.noConfusion h
      | some e0 =>
          simp only [hp] at h
          exact parseMantissa_exp_bound _ _ _ h

theorem goParseIntChars_signed (sign : Prop) [Decidable sign] (l : List Char)
    (hl : l ≠ []) (hld : ∀ c ∈ l, isDigitChar c = true) :
    goParseIntChars ((if sign then ['-'] else []) ++ l) =
      some ((if sign then -1 else 1) * (digitsVal (l.map charToDigitVal) : Int)) := by
  have hpn : parseNatDigits l = some (digitsVal (l.map charToDigitVal)) := by
    unfold parseNatDigits
    rw [if_neg hl, if_pos (List.all_eq_true.mpr hld)]
  by_cases hs : sign
  · rw [if_pos hs, if_pos hs]
    show goParseIntChars ('-' :: l) = _
    simp [goParseIntChars, hpn]
  · rw [if_neg hs, if_neg hs, List.nil_append]
    rw [goParseIntChars_digits l hl hld]
    congr 1
    ring

theorem parseDecimalChars_assembled_nofrac (sign : Prop) [Decidable sign]
    (ip : List Char) (hip : ip ≠ []) (hipd : ∀ c ∈ ip, isDigitChar c = true) :
    parseDecimalChars ((if sign then ['-'] else []) ++ ip) =
      some (Dec.mk ((if sign then -1 else 1) *
        (digitsVal (ip.map charToDigitVal) : Int)) 0) := by
  have hspd : ∀ c ∈ (if sign then ['-'] else ([] : List Char)), c = '-' := by
    by_cases hs : sign <;> simp [hs]
  have hNoE : goSplitFirst (fun c => c = 'e' || c = 'E')
      ((if sign then ['-'] else []) ++ ip) = none := by
    apply goSplitFirst_eq_none
    intro c hc
    rcases List.mem_append.mp hc with hc | hc
    · rw [hspd c hc]; decide
    · obtain ⟨h1, h2, -⟩ := digit_not_special c (hipd c hc)
      simp [h1, h2]
  have hNoDot : goSplitFirst (fun c => c = '.')
      ((if sign then ['-'] else []) ++ ip) = none := by
    apply goSplitFirst_eq_none
    intro c hc
    rcases List.mem_append.mp hc with hc | hc
    · rw [hspd c hc]; decide
    · exact decide_eq_false (digit_not_special c (hipd c hc)).2.2.1
  unfold parseDecimalChars
  simp only [hNoE]
  unfold parseMantissa
  unfold mkDecChecked
  simp only [hNoDot, goParseIntChars_signed sign ip hip hipd]
  rw [if_neg (by omega)]

theorem parseDecimalChars_assembled_frac (sign : Prop) [Decidable sign]
    (ip fp : List Char) (hip : ip ≠ [])
    (hipd : ∀ c ∈ ip, isDigitChar c = true)
    (hfpd : ∀ c ∈ fp, isDigitChar c = true) (hlen : (fp.length : Int) ≤ 2 ^ 31) :
    parseDecimalChars ((if sign then ['-'] else []) ++ ip ++ '.' :: fp) =
      some (Dec.mk ((if sign then -1 else 1) *
          (digitsVal ((ip ++ fp).map charToDigitVal) : Int)) (-(fp.length : Int))) := by
  have hspd : ∀ c ∈ (if sign then ['-'] else ([] : List Char)), c = '-' := by
    by_cases hs : sign <;> simp [hs]
  have hNoE : goSplitFirst (fun c => c = 'e' || c = 'E')
      ((if sign then ['-'] else []) ++ ip ++ '.' :: fp) = none := by
    apply goSplitFirst_eq_none
    intro c hc
    simp only [List.mem_append, List.mem_cons] at hc
    rcases hc with (hc | hc) | rfl | hc
    · rw [hspd c hc]; decide
    · obtain ⟨h1, h2, -⟩ := digit_not_special c (hipd c hc)
      simp [h1, h2]
    · decide
    · obtain ⟨h1, h2, -⟩ := digit_not_special c (hfpd c hc)
      simp [h1, h2]
  have hNoDotPre : ∀ c ∈ (if sign then ['-'] else ([] : List Char)) ++ ip,
      (fun c => decide (c = '.')) c = false := by
    intro c hc
    rcases List.mem_append.mp hc with hc | hc
    · rw [hspd c hc]; decide
    · exact decide_eq_false (digit_not_special c (hipd c hc)).2.2.1
  have hsplit : goSplitFirst (fun c => c = '.')
      (((if sign then ['-'] else []) ++ ip) ++ '.' :: fp) =
      some ((if sign then ['-'] else []) ++ ip, fp) :=
    goSplitFirst_append _ _ '.' fp hNoDotPre (by decide)
  have hAny : fp.any (fun c => c = '.') = false := by
    rw [List.any_eq_false]
    intro c hc
    simpa using (digit_not_special c (hfpd c hc)).2.2.1
  unfold parseDecimalChars
  simp only [hNoE]
  unfold parseMantissa
  unfold mkDecChecked
  simp only [hsplit]
  rw [if_neg (by rw [hAny]; simp)]
  rw [List.append_assoc]
  simp only [goParseIntChars_signed sign (ip ++ fp)
    (by intro hcontra; exact hip (List.append_eq_nil.mp hcontra).1)
    (by intro c hc
        rcases List.mem_append.mp hc with hc | hc
        · exact hipd c hc
        · exact hfpd c hc)]
  rw [if_neg (by omega)]
  norm_num

/-- Digit value of a character run. -/
def charsVal (l : List Char) : Nat := digitsVal (l.map charToDigitVal)

theorem charsVal_append (a b : List Char) :
    charsVal (a ++ b) = charsVal a * 10 ^ b.length + charsVal b := by
  unfold charsVal
  rw [List.map_append, digitsVal_append, List.length_map]

theorem charsVal_natToChars (n : Nat) : charsVal (natToChars n) = n := by
  unfold charsVal
  rw [map_charToDigitVal_natToChars, digitsVal_natToDigits]

theorem charsVal_zeros_append (z : Nat) (l : List Char) :
    charsVal (List.replicate z '0' ++ l) = charsVal l := by
  unfold charsVal
  rw [List.map_append, List.map_replicate]
  show digitsVal (List.replicate z 0 ++ _) = _
  rw [digitsVal_append, digitsVal_replicate_zero]
  ring_nf

theorem charsVal_append_zeros (l : List Char) (k : Nat) :
    charsVal (l ++ List.replicate k '0') = charsVal l * 10 ^ k := by
  unfold charsVal
  rw [List.map_append, List.map_replicate]
  show digitsVal (_ ++ List.replicate k 0) = _
  rw [digitsVal_append_zeros]

theorem charsVal_zero_singleton : charsVal ['0'] = 0 := rfl

theorem roundtrip_arith (s a b : ℚ) (k f : Nat) (hk : k ≤ f) :
    s * (a * 10 ^ (f - k) + b) * (10 : ℚ) ^ (-((f - k : Nat) : Int)) =
      s * (a * 10 ^ f + b * 10 ^ k) * (10 : ℚ) ^ (-((f : Nat) : Int)) := by
  rw [zpow_neg, zpow_neg, zpow_natCast, zpow_natCast]
  have h1 : (10 : ℚ) ^ (f - k) ≠ 0 := pow_ne_zero _ (by norm_num)
  have h2 : (10 : ℚ) ^ f ≠ 0 := pow_ne_zero _ (by norm_num)
  field_simp
  have hsplit : (10 : ℚ) ^ f = 10 ^ (f - k) * 10 ^ k := by
    rw [← pow_add]
    congr 1
    omega
  rw [hsplit]
  ring

theorem intToChars_eq (v : Int) :
    intToChars v = (if v < 0 then ['-'] else []) ++ natToChars v.natAbs := by
  unfold intToChars
  by_cases hv : v < 0 <;> simp [hv]

theorem int_sign_natAbs (v : Int) :
    v = (if v < 0 then -1 else 1) * (v.natAbs : Int) := by
  by_cases hv : v < 0
  · rw [if_pos hv]; omega
  · rw [if_neg hv]; omega

theorem parseDecimalChars_intToChars (v : Int) :
    parseDecimalChars (intToChars v) = some (Dec.mk v 0) := by
  rw [intToChars_eq,
    parseDecimalChars_assembled_nofrac (v < 0) _ (natToChars_ne_nil _) (natToChars_digits _)]
  have h : (digitsVal (List.map charToDigitVal (natToChars v.natAbs)) : Int) =
      (v.natAbs : Int) := by
    rw [map_charToDigitVal_natToChars, digitsVal_natToDigits]
  rw [h, ← int_sign_natAbs v]

theorem sign_cons (P : Prop) [Decidable P] (l : List Char) :
    (if P then '-' :: l else l) = (if P then ['-'] else []) ++ l := by
  by_cases h : P <;> simp [h]

theorem decVal_of_parts (v e : Int) (ip tr : List Char) (k : Nat)
    (habs : v.natAbs = charsVal ip * 10 ^ (-e).toNat + charsVal tr * 10 ^ k)
    (hlen : tr.length + k = (-e).toNat) (he : e < 0) :
    decVal (Dec.mk ((if v < 0 then -1 else 1) * (charsVal (ip ++ tr) : Int))
        (-(tr.length : Int))) = decVal (Dec.mk v e) := by
  set f := (-e).toNat with hf
  have hk : k ≤ f := by omega
  have htrlen : tr.length = f - k := by omega
  have hsum : charsVal (ip ++ tr) = charsVal ip * 10 ^ (f - k) + charsVal tr := by
    rw [charsVal_append, htrlen]
  have hvalue : v = (if v < 0 then -1 else 1) *
      ((charsVal ip * 10 ^ f + charsVal tr * 10 ^ k : Nat) : Int) := by
    rw [← habs]
    exact int_sign_natAbs v
  have hexp : e = -((f : Nat) : Int) := by omega
  unfold decVal
  simp only
  rw [hsum, htrlen]
  conv_rhs => rw [hvalue]
  rw [hexp]
  push_cast
  exact roundtrip_arith _ _ _ k f hk

theorem decToString_parse (d : Dec) (hlo : -(2 ^ 31) ≤ d.exp) :
    ∃ d', parseDecimalChars (decToString d) = some d' ∧ decVal d' = decVal d := by
  by_cases hexp : 0 ≤ d.exp
  · refine ⟨Dec.mk (d.value * (10 : Int) ^ d.exp.toNat) 0, ?_, ?_⟩
    · unfold decToString
      rw [if_pos hexp]
      exact parseDecimalChars_intToChars _
    · unfold decVal
      simp only [zpow_zero, mul_one]
      conv_rhs => rw [show d.exp = ((d.exp.toNat : Nat) : Int) from by omega]
      rw [zpow_natCast]
      push_cast
      ring
  · push_neg at hexp
    have hfle : ((-d.exp).toNat : Int) ≤ 2 ^ 31 := by omega
    obtain ⟨k, htr⟩ := trimTrailingZeroChars_spec
      (if (natToChars d.value.natAbs).length > (-d.exp).toNat then
        (natToChars d.value.natAbs).drop
          ((natToChars d.value.natAbs).length - (-d.exp).toNat)
      else List.replicate ((-d.exp).toNat - (natToChars d.value.natAbs).length) '0' ++
        natToChars d.value.natAbs)
    unfold decToString
    rw [if_neg (by omega), sign_cons]
    by_cases hbig : (natToChars d.value.natAbs).length > (-d.exp).toNat
    · simp only [if_pos hbig] at htr ⊢
      have hfracLen : ((natToChars d.value.natAbs).drop
          ((natToChars d.value.natAbs).length - (-d.exp).toNat)).length = (-d.exp).toNat := by
        rw [List.length_drop]
        omega
      have hlen : (trimTrailingZeroChars ((natToChars d.value.natAbs).drop
            ((natToChars d.value.natAbs).length - (-d.exp).toNat))).length + k =
          (-d.exp).toNat := by
        have h := congrArg List.length htr
        simp only [List.length_append, List.length_replicate] at h
        omega
      have hipne : (natToChars d.value.natAbs).take
          ((natToChars d.value.natAbs).length - (-d.exp).toNat) ≠ [] := by
        rw [← List.length_pos_iff_ne_nil, List.length_take]
        omega
      have hipd : ∀ c ∈ (natToChars d.value.natAbs).take
          ((natToChars d.value.natAbs).length - (-d.exp).toNat), isDigitChar c = true :=
        fun c hc => natToChars_digits _ c (List.take_subset _ _ hc)
      have htrd : ∀ c ∈ trimTrailingZeroChars ((natToChars d.value.natAbs).drop
          ((natToChars d.value.natAbs).length - (-d.exp).toNat)), isDigitChar c = true :=
        fun c hc => natToChars_digits _ c
          (List.drop_subset _ _ (trimTrailingZeroChars_subset _ c hc))
      have habs : d.value.natAbs =
          charsVal ((natToChars d.value.natAbs).take
            ((natToChars d.value.natAbs).length - (-d.exp).toNat)) * 10 ^ (-d.exp).toNat +
          charsVal (trimTrailingZeroChars ((natToChars d.value.natAbs).drop
            ((natToChars d.value.natAbs).length - (-d.exp).toNat))) * 10 ^ k := by
        conv_lhs => rw [← charsVal_natToChars d.value.natAbs,
          ← List.take_append_drop ((natToChars d.value.natAbs).length - (-d.exp).toNat)
            (natToChars d.value.natAbs)]
        rw [charsVal_append, hfracLen]
        congr 1
        conv_lhs => rw [htr]
        rw [charsVal_append_zeros]
      by_cases hTrim : trimTrailingZeroChars ((natToChars d.value.natAbs).drop
          ((natToChars d.value.natAbs).length - (-d.exp).toNat)) = []
      · rw [if_pos hTrim, List.append_nil]
        rw [hTrim] at habs hlen
        refine ⟨_, parseDecimalChars_assembled_nofrac (d.value < 0) _ hipne hipd, ?_⟩
        have hv := decVal_of_parts d.value d.exp
          ((natToChars d.value.natAbs).take
            ((natToChars d.value.natAbs).length - (-d.exp).toNat)) [] k habs hlen hexp
        rw [List.append_nil] at hv
        exact hv
      · rw [if_neg hTrim, ← List.append_assoc]
        exact ⟨_, parseDecimalChars_assembled_frac (d.value < 0) _ _ hipne hipd htrd
            (le_trans (Int.ofNat_le.mpr (Nat.le.intro hlen)) hfle),
          decVal_of_parts d.value d.exp _ _ k habs hlen hexp⟩
    · simp only [if_neg hbig] at htr ⊢
      have hfracLen : (List.replicate ((-d.exp).toNat - (natToChars d.value.natAbs).length) '0' ++
          natToChars d.value.natAbs).length = (-d.exp).toNat := by
        rw [List.length_append, List.length_replicate]
        omega
      have hlen : (trimTrailingZeroChars
            (List.replicate ((-d.exp).toNat - (natToChars d.value.natAbs).length) '0' ++
              natToChars d.value.natAbs)).length + k = (-d.exp).toNat := by
        have h := congrArg List.length htr
        simp only [List.length_append, List.length_replicate] at h
        omega
      have htrd : ∀ c ∈ trimTrailingZeroChars
          (List.replicate ((-d.exp).toNat - (natToChars d.value.natAbs).length) '0' ++
            natToChars d.value.natAbs), isDigitChar c = true := by
        intro c hc
        have hmem := trimTrailingZeroChars_subset _ c hc
        rcases List.mem_append.mp hmem with hm | hm
        · rw [List.eq_of_mem_replicate hm]; decide
        · exact natToChars_digits _ c hm
      have habs : d.value.natAbs =
          charsVal ['0'] * 10 ^ (-d.exp).toNat +
          charsVal (trimTrailingZeroChars
            (List.replicate ((-d.exp).toNat - (natToChars d.value.natAbs).length) '0' ++
              natToChars d.value.natAbs)) * 10 ^ k := by
        rw [charsVal_zero_singleton]
        have hfv : charsVal (List.replicate
              ((-d.exp).toNat - (natToChars d.value.natAbs).length) '0' ++
              natToChars d.value.natAbs) = d.value.natAbs := by
          rw [charsVal_zeros_append, charsVal_natToChars]
        conv_lhs => rw [← hfv, htr]
        rw [charsVal_append_zeros]
        ring
      by_cases hTrim : trimTrailingZeroChars
          (List.replicate ((-d.exp).toNat - (natToChars d.value.natAbs).length) '0' ++
            natToChars d.value.natAbs) = []
      · rw [if_pos hTrim, List.append_nil]
        rw [hTrim] at habs hlen
        refine ⟨_, parseDecimalChars_assembled_nofrac (d.value < 0) ['0'] (by simp)
          (by intro c hc; simp at hc; subst hc; decide), ?_⟩
        have hv := decVal_of_parts d.value d.exp ['0'] [] k habs hlen hexp
        rw [List.append_nil] at hv
        exact hv
      · rw [if_neg hTrim, ← List.append_assoc]
        exact ⟨_, parseDecimalChars_assembled_frac (d.value < 0) ['0'] _ (by simp)
            (by intro c hc; simp at hc; subst hc; decide) htrd
            (le_trans (Int.ofNat_le.mpr (Nat.le.intro hlen)) hfle),
          decVal_of_parts d.value d.exp ['0'] _ k habs hlen hexp⟩

/-- C7: price handling is exact decimal arithmetic:
`NewProductFromString`/`UpdateDetailsFromString` succeed exactly when the
price string parses under `decimal.NewFromString`, answering the
validation error "invalid price format" otherwise; on success the stored
price is the parsed decimal, `GetPriceString` prints it via
`Decimal.String()`, and printing a parsed decimal reparses to the same
exact rational value (no floating-point rounding anywhere). -/
theorem product_price_decimal_exact :
    (∀ name s genId now,
      (parseDecimal s = none →
        NewProductFromString name s genId now =
          Except.error (NewValidationError "invalid price format")) ∧
      ∀ d, parseDecimal s = some d →
        NewProductFromString name s genId now = Except.ok (NewProduct name d genId now)) ∧
    (∀ (p : Product) name s now,
      (parseDecimal s = none →
        p.UpdateDetailsFromString name s now =
          Except.error (NewValidationError "invalid price format")) ∧
      ∀ d, parseDecimal s = some d →
        p.UpdateDetailsFromString name s now = Except.ok (p.UpdateDetails name d now)) ∧
    (∀ p : Product, p.GetPriceString = decString p.price) ∧
    (∀ s d, parseDecimal s = some d →
      ∃ d', parseDecimal (decString d) = some d' ∧ decVal d' = decVal d) := by
  refine ⟨?_, ?_, fun p => rfl, ?_⟩
  · intro name s genId now
    constructor
    · intro h
      simp only [NewProductFromString, h]
    · intro d h
      simp only [NewProductFromString, h]
  · intro p name s now
    constructor
    · intro h
      simp only [Product.UpdateDetailsFromString, h]
    · intro d h
      simp only [Product.UpdateDetailsFromString, h]
  · intro s d h
    exact decToString_parse d (parseDecimalChars_exp_bound s.data d h)

/-- Witness for C7: the price string "1.100" parses to the exact decimal
1100·10⁻³, a non-numeric price string is rejected with the expected
validation error, and printing the parsed decimal ("1.1") reparses to the
same exact value. -/
theorem product_price_decimal_exact_witness :
    NewProductFromString "w" "1.100" (UUID.mk 0) 0 =
      Except.ok (NewProduct "w" (Dec.mk 1100 (-3)) (UUID.mk 0) 0) ∧
    NewProductFromString "w" "x" (UUID.mk 0) 0 =
      Except.error (NewValidationError "invalid price format") ∧
    (∃ d', parseDecimal (decString (Dec.mk 1100 (-3))) = some d' ∧
      decVal d' = decVal (Dec.mk 1100 (-3))) := by
  refine ⟨(product_price_decimal_exact.1 "w" "1.100" (UUID.mk 0) 0).2 (Dec.mk 1100 (-3)) rfl,
    (product_price_decimal_exact.1 "w" "x" (UUID.mk 0) 0).1 rfl,
    product_price_decimal_exact.2.2.2 "1.100" (Dec.mk 1100 (-3)) rfl⟩

end GoInit
